import Mathlib

/-!
Shallow embedding of the XmrSigner decoding core
(`src/seedsigner/models/decode_qr.py`) and of the Monero seed model
(`src/xmrsigner/models/seed.py`), together with proofs settling the
specification claims about them.

Python strings are modelled as Lean `String` (operated on through their
`List Char` data), Python byte strings as `List Nat` (each entry < 256),
Python `int` as `Int`/`Nat`, Python exceptions as an explicit `PyExc`
error channel via `Except`, and Python dicts (insertion ordered) as
association lists.  External collaborators (the structural PSBT parser,
the UR fountain decoder, the bc32/CBOR unwrap, the JSON parser, the
Monero mnemonic library, unicode normalization) are parameters.
-/

/-- Python exception values raised by the modelled code.  Only the
distinctions the code itself makes (which `except` clauses catch what,
and the message text) are represented. -/
inductive PyExc where
  /-- A generic `Exception(msg)`. -/
  | exc (msg : String) : PyExc
  /-- A `TypeError` (e.g. joining `None` into a string, `x in None`). -/
  | typeError (msg : String) : PyExc
  /-- A `ValueError` (e.g. `int()` on a malformed literal). -/
  | valueError (msg : String) : PyExc
  /-- An `IndexError` (sequence index out of range). -/
  | indexError (msg : String) : PyExc
  /-- A `json.decoder.JSONDecodeError`. -/
  | jsonDecodeError (msg : String) : PyExc
  deriving DecidableEq, Repr

/-- Status enum `DecodeQRStatus` from the source (`IntEnum` with values
PART_COMPLETE=1, PART_EXISTING=2, COMPLETE=3, FALSE=4, INVALID=5). -/
inductive DecodeQRStatus where
  | PART_COMPLETE
  | PART_EXISTING
  | COMPLETE
  | FALSE
  | INVALID
  deriving DecidableEq, Repr

/-- Modelled from the spec: the `QRType` closed variant set lives in the
models package `__init__`, which is not part of the provided sources;
the spec (§3) enumerates the variants produced by the classifier plus
the recognized-but-not-produced ones used by the session facade. -/
inductive QRType where
  | PSBTUR2
  | PSBTSPECTER
  | PSBTURLEGACY
  | PSBTBASE64
  | PSBTBASE43
  | SEEDSSQR
  | SEEDUR2
  | SEEDMNEMONIC
  | SEED4LETTERMNEMONIC
  | SETTINGS
  | BITCOINADDRESSQR
  | SPECTERWALLETQR
  | URWALLETQR
  | BLUEWALLETQR
  | JSON
  | INVALID
  deriving DecidableEq, Repr

/-- Decidable equality for `Except`, used to evaluate the model on
concrete inputs. -/
instance {ε α : Type} [DecidableEq ε] [DecidableEq α] :
    DecidableEq (Except ε α) := fun a b =>
  match a, b with
  | .error e, .error f =>
    if h : e = f then .isTrue (by simp [h]) else .isFalse (by simp [h])
  | .error _, .ok _ => .isFalse (by simp)
  | .ok _, .error _ => .isFalse (by simp)
  | .ok x, .ok y =>
    if h : x = y then .isTrue (by simp [h]) else .isFalse (by simp [h])

/-! ## Python primitive helpers -/

namespace Py

/-- Whitespace as stripped by Python `str.strip()` / `int()` (ASCII part). -/
def isPySpace (c : Char) : Bool :=
  c = ' ' || c = '\t' || c = '\n' || c = '\r' || c = '\x0b' || c = '\x0c'

/-- Python `str.strip()` on a character list. -/
def stripChars (cs : List Char) : List Char :=
  ((cs.dropWhile isPySpace).reverse.dropWhile isPySpace).reverse

/-- Python `str.strip()`. -/
def strip (s : String) : String := String.mk (stripChars s.data)

/-- Python `str.split(sep)` for a single-character separator: keeps empty
pieces, `"".split(sep) == [""]`. -/
def splitOnChar (sep : Char) (cs : List Char) : List (List Char) :=
  match cs with
  | [] => [[]]
  | c :: rest =>
    let r := splitOnChar sep rest
    if c = sep then [] :: r
    else match r with
      | [] => [[c]]
      | p :: ps => (c :: p) :: ps

/-- Python `str.split(sep)` on strings (single-char separator). -/
def splitOn (s : String) (sep : Char) : List String :=
  (splitOnChar sep s.data).map String.mk

/-- Digit test (`\d` over ASCII). -/
def isDig (c : Char) : Bool := '0' ≤ c && c ≤ '9'

/-- Numeric value of a list of ASCII digits (most significant first). -/
def digitsToNat (cs : List Char) : Nat :=
  cs.foldl (fun acc c => acc * 10 + (c.toNat - '0'.toNat)) 0

/-- Core of Python `int(s)`: after whitespace stripping and an optional
sign, the body must be digits optionally separated by single
underscores (no leading/trailing/doubled underscore). Returns the
digits with underscores removed, or `none` if malformed. -/
def intBodyDigits : List Char → Option (List Char)
  | [] => none
  | [c] => if isDig c then some [c] else none
  | c :: d :: rest =>
    if isDig c then
      if d = '_' then (intBodyDigits rest).map (fun ds => c :: ds)
      else (intBodyDigits (d :: rest)).map (fun ds => c :: ds)
    else none

/-- Python `int(s)` for string arguments: strips whitespace, accepts an
optional `+`/`-` sign and underscore-grouped decimal digits; any other
shape raises `ValueError` (modelled as `none`). -/
def pyInt (s : String) : Option Int :=
  let cs := stripChars s.data
  match cs with
  | '+' :: rest =>
    match intBodyDigits rest with
    | some ds => some (Int.ofNat (digitsToNat ds))
    | none => none
  | '-' :: rest =>
    match intBodyDigits rest with
    | some ds => some (-(Int.ofNat (digitsToNat ds)))
    | none => none
  | _ =>
    match intBodyDigits cs with
    | some ds => some (Int.ofNat (digitsToNat ds))
    | none => none

/-- Python sequence indexing `l[i]` with negative-index wraparound;
out-of-range raises `IndexError` (modelled as `none`). -/
def pyGet {α : Type} (l : List α) (i : Int) : Option α :=
  if 0 ≤ i then l.get? i.toNat
  else
    let j : Int := (l.length : Int) + i
    if 0 ≤ j then l.get? j.toNat else none

/-- Python slice `s[a:b]` for `0 ≤ a ≤ b` on character lists. -/
def sliceChars (cs : List Char) (a b : Nat) : List Char :=
  (cs.drop a).take (b - a)

/-- Python `str.replace(old, new)` for single characters. -/
def replaceChar (cs : List Char) (old new : Char) : List Char :=
  cs.map (fun c => if c = old then new else c)

/-- Python `str.replace(old, "")` removing every occurrence of a set of
characters (used for `s.replace("\n","").replace(" ","")`). -/
def removeChars (cs : List Char) (bad : List Char) : List Char :=
  cs.filter (fun c => !(bad.contains c))

/-- Case-insensitive ASCII character comparison (re.IGNORECASE). -/
def eqCI (a b : Char) : Bool := a.toLower = b.toLower

/-- Case-insensitive anchored literal match: does `cs` start with the
literal `lit` ignoring ASCII case (regex `^lit` with IGNORECASE)? -/
def startsWithCI : List Char → List Char → Bool
  | _, [] => true
  | [], _ :: _ => false
  | c :: cs, l :: ls => eqCI c l && startsWithCI cs ls

/-- Case-sensitive anchored literal match. -/
def startsWithCS : List Char → List Char → Bool
  | _, [] => true
  | [], _ :: _ => false
  | c :: cs, l :: ls => c = l && startsWithCS cs ls

/-- Case-sensitive substring containment (Python `in`). -/
def containsSubCS : List Char → List Char → Bool
  | [], pat => pat.isEmpty
  | c :: rest, pat => startsWithCS (c :: rest) pat || containsSubCS rest pat

/-- Case-insensitive substring containment (IGNORECASE regex `.*pat`). -/
def containsSubCI : List Char → List Char → Bool
  | [], pat => pat.isEmpty
  | c :: rest, pat => startsWithCI (c :: rest) pat || containsSubCI rest pat

/-- Insertion-ordered dict update `d[k] = v`: replaces in place if the
key exists, appends otherwise. -/
def dset {α : Type} : List (String × α) → String → α → List (String × α)
  | [], k, v => [(k, v)]
  | (k', v') :: t, k, v =>
    if k' = k then (k, v) :: t else (k', v') :: dset t k v

/-- Dict lookup `d.get(k)` / `d[k]`. -/
def dget {α : Type} : List (String × α) → String → Option α
  | [], _ => none
  | (k', v') :: t, k => if k' = k then some v' else dget t k

/-- Dict membership `k in d`. -/
def dmem {α : Type} (d : List (String × α)) (k : String) : Bool :=
  (dget d k).isSome

/-- Dict removal `d.pop(k, None)` / `del d[k]`: drops the entry. -/
def ddel {α : Type} : List (String × α) → String → List (String × α)
  | [], _ => []
  | (k', v') :: t, k => if k' = k then t else (k', v') :: ddel t k

end Py

/-! ## Base43 codec (`DecodeQR.base43Decode`) -/

namespace DecodeQR

/-- The base43 alphabet from the source
(`0123456789ABCDEFGHIJKLMNOPQRSTUVWXYZ$*+-./:`), as digit values. -/
def base43Chars : List Char :=
  "0123456789ABCDEFGHIJKLMNOPQRSTUVWXYZ$*+-./:".data

/-- `chars.find(bytes([c]))`: index of `c` in the base43 alphabet, `-1`
(here `none`) if absent. -/
def base43DigitVal (c : Char) : Option Nat :=
  (base43Chars.indexOf? c).map id

/-- The accumulation loop `for c in v[::-1]: long_value += digit *
power_of_base; power_of_base *= 43`, expressed over the original order:
the string read as a big-endian base-43 numeral.  `none` mirrors the
`Forbidden character` exception. -/
def base43Value : List Char → Option Nat
  | [] => some 0
  | c :: rest =>
    match base43DigitVal c, base43Value rest with
    | some d, some v => some (v + d * 43 ^ rest.length)
    | _, _ => none

/-- Fuelled little-endian byte expansion; `fuel ≥ v` makes the fuel
inexhaustible (see `leBytes`), it only serves to make the recursion
structural so that the kernel can evaluate it. -/
def leBytesAux : Nat → Nat → List Nat
  | 0, v => [v]
  | fuel + 1, v =>
    if 256 ≤ v then (v % 256) :: leBytesAux fuel (v / 256) else [v]

/-- The extraction loop `while long_value >= 256: append mod; ...` then
`result.append(long_value)`: little-endian bytes of `v`, always at
least one byte (a final zero byte is appended even when `v = 0`). -/
def leBytes (v : Nat) : List Nat := leBytesAux v v

/-- `nPad`: number of leading `'0'` characters of the original input. -/
def base43LeadingZeros (cs : List Char) : Nat :=
  (cs.takeWhile (fun c => c = '0')).length

/-- `DecodeQR.base43Decode` from the source: ASCII-encode the input
(raising on non-ASCII), interpret it as a base-43 numeral, emit the
little-endian byte expansion, append one `0x00` per leading `'0'`
character, and reverse. -/
def base43Decode (s : String) : Except PyExc (List Nat) :=
  let cs := s.data
  if !(cs.all (fun c => c.toNat < 128)) then
    Except.error (PyExc.valueError "ascii codec cannot encode character")
  else
    match base43Value cs with
    | none => Except.error (PyExc.exc "Forbidden character for base 43")
    | some v =>
      Except.ok ((leBytes v ++ List.replicate (base43LeadingZeros cs) 0).reverse)

/-- `DecodeQR.isBase43PSBT`: decode then structurally parse via the
external PSBT collaborator `psbtOk`; every raised error maps to
`false`. -/
def isBase43PSBT (psbtOk : List Nat → Bool) (s : String) : Bool :=
  match base43Decode s with
  | Except.error _ => false
  | Except.ok bs => psbtOk bs

end DecodeQR

/-! ## Base64 (`base64.b64decode` / `base64.b64encode` / `a2b_base64`)

`pyB64Decode` models the stdlib decoder on its canonical domain: a
multiple-of-four run of alphabet characters with `=` padding only at
the end.  Outside that domain the stdlib either raises or silently
drops the non-alphabet characters; in both cases re-encoding cannot
reproduce the input, so `DecodeQR.isBase64` (the only way the decoder's
result is compared against raw text) agrees with the stdlib on every
string.  All other call sites are guarded by `isBase64`. -/

namespace Py

/-- Value of a base64 alphabet character. -/
def b64CharVal (c : Char) : Option Nat :=
  if 'A' ≤ c && c ≤ 'Z' then some (c.toNat - 'A'.toNat)
  else if 'a' ≤ c && c ≤ 'z' then some (c.toNat - 'a'.toNat + 26)
  else if '0' ≤ c && c ≤ '9' then some (c.toNat - '0'.toNat + 52)
  else if c = '+' then some 62
  else if c = '/' then some 63
  else none

/-- Decode one base64 quad; padding (`=`) is accepted only when
`isLast` is set. -/
def b64Quad (w x y z : Char) (isLast : Bool) : Option (List Nat) :=
  match b64CharVal w, b64CharVal x with
  | some vw, some vx =>
    if y = '=' then
      if isLast && z = '=' then some [vw * 4 + vx / 16] else none
    else
      match b64CharVal y with
      | some vy =>
        if z = '=' then
          if isLast then some [vw * 4 + vx / 16, (vx % 16) * 16 + vy / 4]
          else none
        else
          match b64CharVal z with
          | some vz =>
            some [vw * 4 + vx / 16, (vx % 16) * 16 + vy / 4,
                  (vy % 4) * 64 + vz]
          | none => none
      | none => none
  | _, _ => none

/-- Quad-by-quad base64 decoding of a character list. -/
def b64DecodeChars : List Char → Option (List Nat)
  | [] => some []
  | w :: x :: y :: z :: rest =>
    match b64Quad w x y z rest.isEmpty, b64DecodeChars rest with
    | some bs, some bs' => some (bs ++ bs')
    | _, _ => none
  | _ => none

/-- `base64.b64decode` on its canonical domain (see section comment). -/
def pyB64Decode (s : String) : Option (List Nat) := b64DecodeChars s.data

/-- Character for a 6-bit value. -/
def b64CharOfVal (n : Nat) : Char :=
  ("ABCDEFGHIJKLMNOPQRSTUVWXYZabcdefghijklmnopqrstuvwxyz0123456789+/".data).getD
    n 'A'

/-- `base64.b64encode` (standard, no line wrapping). -/
def b64EncodeBytes : List Nat → List Char
  | [] => []
  | [a] => [b64CharOfVal (a / 4), b64CharOfVal (a % 4 * 16), '=', '=']
  | [a, b] =>
    [b64CharOfVal (a / 4), b64CharOfVal (a % 4 * 16 + b / 16),
     b64CharOfVal (b % 16 * 4), '=']
  | a :: b :: c :: rest =>
    b64CharOfVal (a / 4) :: b64CharOfVal (a % 4 * 16 + b / 16) ::
      b64CharOfVal (b % 16 * 4 + c / 64) :: b64CharOfVal (c % 64) ::
        b64EncodeBytes rest

/-- `base64.b64encode` as a string. -/
def pyB64Encode (bs : List Nat) : String := String.mk (b64EncodeBytes bs)

/-- `binascii.a2b_base64`, used where the input is already known to be
valid base64. -/
def a2bBase64 (s : String) : Except PyExc (List Nat) :=
  match pyB64Decode s with
  | some bs => Except.ok bs
  | none => Except.error (PyExc.valueError "Invalid base64-encoded string")

/-- `binascii.b2a_base64`: encode and append a newline. -/
def b2aBase64 (bs : List Nat) : String := pyB64Encode bs ++ "\n"

end Py

namespace DecodeQR

/-- `DecodeQR.isBase64`: `b64encode(b64decode(s)) == s.encode('ascii')`
with every exception mapped to `false`. -/
def isBase64 (s : String) : Bool :=
  match Py.pyB64Decode s with
  | some bs => Py.pyB64Encode bs = s
  | none => false

/-- `DecodeQR.isBase64PSBT`: valid base64 whose decoded bytes pass the
external structural PSBT parse `psbtOk`. -/
def isBase64PSBT (psbtOk : List Nat → Bool) (s : String) : Bool :=
  isBase64 s &&
    (match Py.pyB64Decode s with
     | some bs => psbtOk bs
     | none => false)

end DecodeQR

/-! ## Framing grammars (the regular expressions of the source) -/

namespace Frames

open Py

/-- Base64-alphabet-or-padding character class `[A-Za-z0-9+/=]`. -/
def isB64SegChar (c : Char) : Bool :=
  ('A' ≤ c && c ≤ 'Z') || ('a' ≤ c && c ≤ 'z') || isDig c ||
    c = '+' || c = '/' || c = '='

/-- Parse of `^p(\d+)of(\d+) ` (IGNORECASE): the two numbers and the
remaining text after the mandatory space.  Both `\d+` groups are
forced maximal because a shorter first group would place a digit where
the literal `of` must sit, and a shorter second group a digit where
the space must sit. -/
def specterParse (cs : List Char) : Option (Nat × Nat × List Char) :=
  match cs with
  | [] => none
  | c :: rest =>
    if eqCI c 'p' then
      let d1 := rest.takeWhile isDig
      if d1.isEmpty then none
      else
        match rest.drop d1.length with
        | o :: f :: rest2 =>
          if eqCI o 'o' && eqCI f 'f' then
            let d2 := rest2.takeWhile isDig
            if d2.isEmpty then none
            else
              match rest2.drop d2.length with
              | ' ' :: body => some (digitsToNat d1, digitsToNat d2, body)
              | _ => none
          else none
        | _ => none
    else none

/-- Classifier check 2, `^p(\d+)of(\d+) ([A-Za-z0-9+/=]+$)`: a Specter
header whose whole body is base64-alphabet text. -/
def specterB64Match (cs : List Char) : Bool :=
  match specterParse cs with
  | some (_, _, body) => !body.isEmpty && body.all isB64SegChar
  | none => false

/-- Parse of `^UR:BYTES/(\d+)OF(\d+)` (IGNORECASE). -/
def urBytesParse (cs : List Char) : Option (Nat × Nat) :=
  if startsWithCI cs "UR:BYTES/".data then
    let rest := cs.drop 9
    let d1 := rest.takeWhile isDig
    if d1.isEmpty then none
    else
      match rest.drop d1.length with
      | o :: f :: rest2 =>
        if eqCI o 'o' && eqCI f 'f' then
          let d2 := rest2.takeWhile isDig
          if d2.isEmpty then none else some (digitsToNat d1, digitsToNat d2)
        else none
      | _ => none
  else none

/-- Body character class `[a-zA-HJ-NP-Z0-9]` of the address grammar. -/
def addrBodyChar (c : Char) : Bool :=
  ('a' ≤ c && c ≤ 'z') || ('A' ≤ c && c ≤ 'H') || ('J' ≤ c && c ≤ 'N') ||
    ('P' ≤ c && c ≤ 'Z') || isDig c

/-- The ordered alternation `(bc1|tb1|[123]|[mn])` at the head of the
text.  The alternatives start with pairwise distinct characters
(`b`, `t`, `1`/`2`/`3`, `m`/`n`), so at most one can match and ordered
backtracking reduces to this deterministic choice. -/
def addrAltAt (cs : List Char) : Option (List Char × List Char) :=
  if startsWithCS cs "bc1".data then some ("bc1".data, cs.drop 3)
  else if startsWithCS cs "tb1".data then some ("tb1".data, cs.drop 3)
  else
    match cs with
    | c :: rest =>
      if c = '1' || c = '2' || c = '3' then some ([c], rest)
      else if c = 'm' || c = 'n' then some ([c], rest)
      else none
    | [] => none

/-- Match of `((bc1|tb1|[123]|[mn])[a-zA-HJ-NP-Z0-9]{25,62})` anchored
at the head of `cs`: the greedy quantifier takes the available run of
body characters capped at 62 and fails below 25. -/
def addrMatchAt (cs : List Char) : Option (List Char) :=
  match addrAltAt cs with
  | some (p, rest) =>
    let run := (rest.takeWhile addrBodyChar).length
    if 25 ≤ run then some (p ++ rest.take (min run 62)) else none
  | none => none

/-- `re.search` of the loose address pattern: leftmost match. -/
def addrSearch : List Char → Option (List Char)
  | [] => none
  | c :: rest =>
    match addrMatchAt (c :: rest) with
    | some m => some m
    | none => addrSearch rest

/-- The anchored re-check `^((bc1|tb1|[123]|[mn])[a-zA-HJ-NP-Z0-9]
{25,62})$`: some alternative heads the string and the full remainder is
25–62 body characters. -/
def addrAnchored (cs : List Char) : Bool :=
  match addrAltAt cs with
  | some (_, rest) =>
    rest.all addrBodyChar && 25 ≤ rest.length && rest.length ≤ 62
  | none => false

/-- `DecodeQR.isBitcoinAddress`: URI scheme (`^bitcoin:`, IGNORECASE)
or the anchored bare-address grammar. -/
def isBitcoinAddress (cs : List Char) : Bool :=
  startsWithCI cs "bitcoin:".data || addrAnchored cs

/-- Search for `\d{48,96}`: some position starts a run of at least 48
digits. -/
def hasDigitRun48 : List Char → Bool
  | [] => false
  | c :: rest =>
    48 ≤ ((c :: rest).takeWhile isDig).length || hasDigitRun48 rest

/-- Classifier check 6 on the whitespace-stripped text:
`^\{\"label\".*\"descriptor\"\:.*` (IGNORECASE), i.e. the text starts
with `{"label"` and `"descriptor":` occurs afterwards. -/
def labelDescCheck (cs : List Char) : Bool :=
  startsWithCI cs "\x7b\"label\"".data &&
    containsSubCI (cs.drop 8) "\"descriptor\":".data

end Frames

namespace DecodeQR

open Py Frames

/-- `DecodeQR.SegmentType`: priority-ordered classification.  `psbtOk`
is the external structural PSBT parser; `wordlist` is `None` at the
static helper call sites, which makes the mnemonic membership test
raise `TypeError` when it is reached. -/
def SegmentType (psbtOk : List Nat → Bool) (s : String)
    (wordlist : Option (List String)) : Except PyExc QRType :=
  let cs := s.data
  if startsWithCI cs "UR:CRYPTO-PSBT/".data then .ok .PSBTUR2
  else if specterB64Match cs then .ok .PSBTSPECTER
  else if startsWithCI cs "UR:BYTES/".data then .ok .PSBTURLEGACY
  else if isBase64PSBT psbtOk s then .ok .PSBTBASE64
  else
    let descStr := removeChars cs ['\n', ' ']
    if (specterParse cs).isSome then .ok .SPECTERWALLETQR
    else if labelDescCheck descStr then .ok .SPECTERWALLETQR
    else
      let fourLetter : List String :=
        match wordlist with
        | none => []
        | some wl => wl.map (fun w => Py.strip (String.mk (w.data.take 4)))
      if hasDigitRun48 cs then .ok .SEEDSSQR
      else if isBitcoinAddress cs then .ok .BITCOINADDRESSQR
      else
        match wordlist with
        | none =>
          .error (.typeError "argument of type NoneType is not iterable")
        | some wl =>
          let tokens := Py.splitOn (Py.strip s) ' '
          if tokens.all (fun t => wl.contains t) then .ok .SEEDMNEMONIC
          else if tokens.all (fun t => fourLetter.contains t) then
            .ok .SEED4LETTERMNEMONIC
          else if isBase43PSBT psbtOk s then .ok .PSBTBASE43
          else if containsSubCS cs "type=settings".data then .ok .SETTINGS
          else .ok .INVALID

end DecodeQR


/-! ## Reassemblers and single-frame decoders -/

namespace Py

/-- Python `"".join(parts)` over a list that may hold `None`: raises
`TypeError` at the first `None`, otherwise concatenates. -/
def pyJoinOpt : List (Option String) → Except PyExc String
  | [] => Except.ok ""
  | some s :: rest => (pyJoinOpt rest).map (fun r => s ++ r)
  | none :: _ =>
    Except.error (PyExc.typeError "sequence item: expected str instance, NoneType found")

/-- Python list element assignment `l[i] = v` with negative-index
wraparound (only called in range in the source). -/
def pySet {α : Type} (l : List α) (i : Int) (v : α) : List α :=
  if 0 ≤ i then l.set i.toNat v
  else l.set ((l.length : Int) + i).toNat v

end Py

/-- State of `SpecterDecodePSBTQR` (Specter Desktop animated PSBT). -/
structure SpecterDecodePSBTQR where
  total_segments : Option Nat
  collected_segments : Nat
  complete : Bool
  segments : List (Option String)
  deriving DecidableEq, Repr

namespace SpecterDecodePSBTQR

/-- `__init__`. -/
def init : SpecterDecodePSBTQR := ⟨none, 0, false, []⟩

/-- `currentSegmentNum`: group 1 of the `pXofY ` header, guarded by a
re-classification (with `wordlist=None`); otherwise the `Unable to
parse` exception. -/
def currentSegmentNum (psbtOk : List Nat → Bool) (segment : String) :
    Except PyExc Nat := do
  let t ← DecodeQR.SegmentType psbtOk segment none
  if t = QRType.PSBTSPECTER then
    match Frames.specterParse segment.data with
    | some (cur, _, _) => pure cur
    | none => throw (PyExc.exc "Unable to parse Specter Desktop segment")
  else throw (PyExc.exc "Unable to parse Specter Desktop segment")

/-- `totalSegmentNum`: group 2 of the `pXofY ` header. -/
def totalSegmentNum (psbtOk : List Nat → Bool) (segment : String) :
    Except PyExc Nat := do
  let t ← DecodeQR.SegmentType psbtOk segment none
  if t = QRType.PSBTSPECTER then
    match Frames.specterParse segment.data with
    | some (_, tot, _) => pure tot
    | none => throw (PyExc.exc "Unable to parse Specter Desktop segment")
  else throw (PyExc.exc "Unable to parse Specter Desktop segment")

/-- `parseSegment`: `segment.split(" ")[-1].strip()`. -/
def parseSegment (segment : String) : String :=
  Py.strip ((Py.splitOn segment ' ').getLastD "")

/-- `add`: establish or re-check `total_segments` (a changed total is a
fatal exception), then fill the 1-based slot unless already present. -/
def add (psbtOk : List Nat → Bool) (st : SpecterDecodePSBTQR)
    (segment : String) :
    Except PyExc (DecodeQRStatus × SpecterDecodePSBTQR) := do
  let st ←
    match st.total_segments with
    | none => do
      let t ← totalSegmentNum psbtOk segment
      pure { st with total_segments := some t,
                     segments := List.replicate t none }
    | some t => do
      let t' ← totalSegmentNum psbtOk segment
      if t ≠ t' then
        throw (PyExc.exc "Specter Desktop segment total changed unexpectedly")
      else pure st
  let cur ← currentSegmentNum psbtOk segment
  let idx : Int := (cur : Int) - 1
  match Py.pyGet st.segments idx with
  | none => throw (PyExc.indexError "list index out of range")
  | some slot =>
    if slot = none then
      let st' := { st with
        segments := Py.pySet st.segments idx (some (parseSegment segment)),
        collected_segments := st.collected_segments + 1 }
      if st'.total_segments = some st'.collected_segments then
        pure (DecodeQRStatus.COMPLETE, { st' with complete := true })
      else pure (DecodeQRStatus.PART_COMPLETE, st')
    else pure (DecodeQRStatus.PART_EXISTING, st)

/-- `getBase64Data`: join first (raising on a `None` slot), then return
the joined text only when complete and valid base64. -/
def getBase64Data (st : SpecterDecodePSBTQR) : Except PyExc (Option String) := do
  let b64 ← Py.pyJoinOpt st.segments
  if st.complete && DecodeQR.isBase64 b64 then pure (some b64)
  else pure none

/-- `getData`: base64-decode the joined text. -/
def getData (st : SpecterDecodePSBTQR) : Except PyExc (Option (List Nat)) := do
  match ← getBase64Data st with
  | some b64 => (Py.a2bBase64 b64).map some
  | none => pure none

end SpecterDecodePSBTQR

/-- State of `LegacyURDecodeQR` (legacy `UR:BYTES` animated frames). -/
structure LegacyURDecodeQR where
  total_segments : Option Nat
  collected_segments : Nat
  complete : Bool
  segments : List (Option String)
  deriving DecidableEq, Repr

namespace LegacyURDecodeQR

/-- `__init__`. -/
def init : LegacyURDecodeQR := ⟨none, 0, false, []⟩

/-- `currentSegmentNum`: group 1 of `^UR:BYTES/(\d+)OF(\d+)`; an
`UR:BYTES/` frame that fails the numbered grammar raises. -/
def currentSegmentNum (psbtOk : List Nat → Bool) (segment : String) :
    Except PyExc Nat := do
  let t ← DecodeQR.SegmentType psbtOk segment none
  if t = QRType.PSBTURLEGACY then
    match Frames.urBytesParse segment.data with
    | some (cur, _) => pure cur
    | none => throw (PyExc.exc "Unexpected Legacy UR Error")
  else throw (PyExc.exc "Unable to parse Legacy UR segment")

/-- `totalSegmentNum`: group 2 of the header, defaulting to `1` for an
unnumbered `UR:BYTES/` frame. -/
def totalSegmentNum (psbtOk : List Nat → Bool) (segment : String) :
    Except PyExc Nat := do
  let t ← DecodeQR.SegmentType psbtOk segment none
  if t = QRType.PSBTURLEGACY then
    match Frames.urBytesParse segment.data with
    | some (_, tot) => pure tot
    | none => pure 1
  else throw (PyExc.exc "Unable to parse Legacy UR segment")

/-- `parseSegment`: `segment.split("/")[-1].strip()`. -/
def parseSegment (segment : String) : String :=
  Py.strip ((Py.splitOn segment '/').getLastD "")

/-- `add`: same shared reassembler pattern as the Specter PSBT class. -/
def add (psbtOk : List Nat → Bool) (st : LegacyURDecodeQR)
    (segment : String) :
    Except PyExc (DecodeQRStatus × LegacyURDecodeQR) := do
  let st ←
    match st.total_segments with
    | none => do
      let t ← totalSegmentNum psbtOk segment
      pure { st with total_segments := some t,
                     segments := List.replicate t none }
    | some t => do
      let t' ← totalSegmentNum psbtOk segment
      if t ≠ t' then
        throw (PyExc.exc "UR Legacy segment total changed unexpectedly")
      else pure st
  let cur ← currentSegmentNum psbtOk segment
  let idx : Int := (cur : Int) - 1
  match Py.pyGet st.segments idx with
  | none => throw (PyExc.indexError "list index out of range")
  | some slot =>
    if slot = none then
      let st' := { st with
        segments := Py.pySet st.segments idx (some (parseSegment segment)),
        collected_segments := st.collected_segments + 1 }
      if st'.total_segments = some st'.collected_segments then
        pure (DecodeQRStatus.COMPLETE, { st' with complete := true })
      else pure (DecodeQRStatus.PART_COMPLETE, st')
    else pure (DecodeQRStatus.PART_EXISTING, st)

/-- `getData`: gated on `complete`; joins the segments and unwraps them
through the external bc32+CBOR collaborator `bcUnwrap`. -/
def getData (bcUnwrap : String → List Nat) (st : LegacyURDecodeQR) :
    Except PyExc (Option (List Nat)) := do
  if !st.complete then pure none
  else do
    let j ← Py.pyJoinOpt st.segments
    pure (some (bcUnwrap j))

end LegacyURDecodeQR

/-- State of `Base64DecodeQR` (single-frame base64). -/
structure Base64DecodeQR where
  total_segments : Nat
  collected_segments : Nat
  complete : Bool
  data : Option String
  deriving DecidableEq, Repr

namespace Base64DecodeQR

/-- `__init__`. -/
def init : Base64DecodeQR := ⟨1, 0, false, none⟩

/-- `add`: accept any valid base64 frame whole. -/
def add (st : Base64DecodeQR) (segment : String) :
    DecodeQRStatus × Base64DecodeQR :=
  if DecodeQR.isBase64 segment then
    (DecodeQRStatus.COMPLETE,
     { st with complete := true, data := some segment,
               collected_segments := 1 })
  else (DecodeQRStatus.INVALID, st)

/-- `getData`: base64-decode the stored frame. -/
def getData (st : Base64DecodeQR) : Except PyExc (Option (List Nat)) :=
  match st.data with
  | some b64 => (Py.a2bBase64 b64).map some
  | none => Except.ok none

end Base64DecodeQR

/-- State of `Base43DecodeQR` (single-frame base43). -/
structure Base43DecodeQR where
  total_segments : Nat
  collected_segments : Nat
  complete : Bool
  data : Option (List Nat)
  deriving DecidableEq, Repr

namespace Base43DecodeQR

/-- `__init__`. -/
def init : Base43DecodeQR := ⟨1, 0, false, none⟩

/-- `add`: accept a frame iff its base43 decode passes the external
structural PSBT parse; the decoded bytes are stored. -/
def add (psbtOk : List Nat → Bool) (st : Base43DecodeQR) (segment : String) :
    DecodeQRStatus × Base43DecodeQR :=
  if DecodeQR.isBase43PSBT psbtOk segment then
    match DecodeQR.base43Decode segment with
    | Except.ok bs =>
      (DecodeQRStatus.COMPLETE,
       { st with complete := true, data := some bs, collected_segments := 1 })
    | Except.error _ => (DecodeQRStatus.INVALID, st)
  else (DecodeQRStatus.INVALID, st)

/-- `getData`. -/
def getData (st : Base43DecodeQR) : Option (List Nat) := st.data

end Base43DecodeQR

/-! ## Seed phrase decoder (`SeedQR`) -/

/-- State of `SeedQR` (single-frame seed decoder; the constructor
requires a wordlist). -/
structure SeedQR where
  total_segments : Nat
  collected_segments : Nat
  complete : Bool
  seed_phrase : List String
  wordlist : List String
  deriving DecidableEq, Repr

namespace SeedQR

/-- `__init__(wordlist=...)` with a present wordlist. -/
def init (wordlist : List String) : SeedQR := ⟨1, 0, false, [], wordlist⟩

/-- The numeric-seed loop `for i in range(num_words): index =
int(segment[i*4:(i*4)+4]); word = wordlist[index]; append`.  Returns
the words accumulated so far and whether the loop ran to completion;
`false` corresponds to a `ValueError`/`IndexError` escaping to the
surrounding `except`, with the partial phrase retained. -/
def seedDigitsLoop (wordlist : List String) (cs : List Char) :
    Nat → Nat → List String → List String × Bool
  | _, 0, acc => (acc, true)
  | i, n + 1, acc =>
    match Py.pyInt (String.mk (Py.sliceChars cs (i * 4) (i * 4 + 4))) with
    | none => (acc, false)
    | some idx =>
      match Py.pyGet wordlist idx with
      | none => (acc, false)
      | some w => seedDigitsLoop wordlist cs (i + 1) n (acc ++ [w])

/-- `is1224Phrase` applied to a candidate phrase. -/
def is1224 (phrase : List String) : Bool :=
  phrase.length = 12 || phrase.length = 24

/-- `add`.  The word count is `int(len(segment) / 4)` (truncating
division).  `seedStrOk`/`seedListOk` stand for the external mnemonic
validator (`Seed(...)` of the seedsigner models package, not part of
the sources): `false` means construction raised. -/
def add (seedStrOk : String → Bool) (seedListOk : List String → Bool)
    (st : SeedQR) (segment : String) (qr_type : QRType) :
    DecodeQRStatus × SeedQR :=
  let _4letter := st.wordlist.map (fun w => Py.strip (String.mk (w.data.take 4)))
  match qr_type with
  | QRType.SEEDSSQR =>
    let num_words := segment.data.length / 4
    let (phrase, ok) := seedDigitsLoop st.wordlist segment.data 0 num_words []
    if !ok then (DecodeQRStatus.INVALID, { st with seed_phrase := phrase })
    else if phrase.length > 0 then
      if !(is1224 phrase) then
        (DecodeQRStatus.INVALID, { st with seed_phrase := phrase })
      else
        (DecodeQRStatus.COMPLETE,
         { st with seed_phrase := phrase, complete := true,
                   collected_segments := 1 })
    else (DecodeQRStatus.INVALID, { st with seed_phrase := [] })
  | QRType.SEEDMNEMONIC =>
    if !(seedStrOk segment) then (DecodeQRStatus.INVALID, st)
    else
      let phrase := Py.splitOn (Py.strip segment) ' '
      if !(is1224 phrase) then
        (DecodeQRStatus.INVALID, { st with seed_phrase := phrase })
      else
        (DecodeQRStatus.COMPLETE,
         { st with seed_phrase := phrase, complete := true,
                   collected_segments := 1 })
  | QRType.SEED4LETTERMNEMONIC =>
    let sl := Py.splitOn (Py.strip segment) ' '
    let words? : Option (List String) :=
      sl.foldr
        (fun s acc =>
          match _4letter.indexOf? s, acc with
          | some i, some ws =>
            match Py.pyGet st.wordlist (Int.ofNat i) with
            | some w => some (w :: ws)
            | none => none
          | _, _ => none)
        (some [])
    match words? with
    | none => (DecodeQRStatus.INVALID, st)
    | some words =>
      if !(seedListOk words) then (DecodeQRStatus.INVALID, st)
      else if !(is1224 words) then
        (DecodeQRStatus.INVALID, { st with seed_phrase := words })
      else
        (DecodeQRStatus.COMPLETE,
         { st with seed_phrase := words, complete := true,
                   collected_segments := 1 })
  | _ => (DecodeQRStatus.INVALID, st)

/-- `getSeedPhrase`: the phrase copy when complete, else empty. -/
def getSeedPhrase (st : SeedQR) : List String :=
  if st.complete then st.seed_phrase else []

end SeedQR

/-! ## Settings decoder (`SettingsQR`) -/

/- Modelled from the spec: the human-readable option constants live in
`models/settings.py` / `models/seed.py` of the seedsigner package,
which are not part of the sources; the spec (§4.6) describes a
tri-state enable table and list tables for coordinators, sig types and
script types.  Only distinctness and identity of the constants matter
here. -/
namespace SettingsConstants

def OPTION__DISABLED : String := "Disabled"
def OPTION__ENABLED : String := "Enabled"
def OPTION__PROMPT : String := "Prompt"
def COORDINATOR__BLUE_WALLET : String := "BlueWallet"
def COORDINATOR__SPARROW : String := "Sparrow"
def COORDINATOR__SPECTER_DESKTOP : String := "Specter Desktop"

end SettingsConstants

/- Modelled from the spec: sig-type and script-type constants of the
seedsigner `SeedConstants`, not part of the sources. -/
namespace SeedConstants

def SINGLE_SIG : String := "Single Sig"
def MULTISIG : String := "Multisig"
def NATIVE_SEGWIT : String := "Native Segwit"
def NESTED_SEGWIT : String := "Nested Segwit"
def TAPROOT : String := "Taproot"
def CUSTOM_DERIVATION : String := "Custom Derivation"

end SeedConstants

/-- A leaf settings value: a plain string or a translated list. -/
inductive LeafVal where
  | str (v : String)
  | list (vs : List String)
  deriving DecidableEq, Repr

/-- A settings dict value: a leaf, or a nested category dict. -/
inductive SVal where
  | leaf (v : LeafVal)
  | cat (m : List (String × LeafVal))
  deriving DecidableEq, Repr

/-- State of `SettingsQR`. -/
structure SettingsQR where
  total_segments : Nat
  collected_segments : Nat
  complete : Bool
  settings : List (String × SVal)
  config_name : Option String
  deriving DecidableEq, Repr

namespace SettingsQR

/-- `__init__`. -/
def init : SettingsQR := ⟨1, 0, false, [], none⟩

/-- The key/value parse loop: `key = entry.split("=")[0].strip(); value
= entry.split("=")[1].strip()`.  `false` corresponds to the
`IndexError` on an entry without `=`, escaping to the surrounding
`except` with the partially filled dict retained. -/
def parseLoop : List String → List (String × SVal) →
    List (String × SVal) × Bool
  | [], d => (d, true)
  | e :: rest, d =>
    match Py.splitOn e '=' with
    | k :: v :: _ =>
      parseLoop rest (Py.dset d (Py.strip k) (SVal.leaf (LeafVal.str (Py.strip v))))
    | _ => (d, false)

/-- `map_abbreviated_enable`. -/
def mapAbbreviatedEnable : List (String × String) :=
  [("0", SettingsConstants.OPTION__DISABLED),
   ("1", SettingsConstants.OPTION__ENABLED),
   ("2", SettingsConstants.OPTION__PROMPT)]

/-- `map_abbreviated_sig_types`. -/
def mapAbbreviatedSigTypes : List (String × String) :=
  [("s", SeedConstants.SINGLE_SIG), ("m", SeedConstants.MULTISIG)]

/-- `map_abbreviated_scripts`. -/
def mapAbbreviatedScripts : List (String × String) :=
  [("na", SeedConstants.NATIVE_SEGWIT), ("ne", SeedConstants.NESTED_SEGWIT),
   ("tr", SeedConstants.TAPROOT), ("cu", SeedConstants.CUSTOM_DERIVATION)]

/-- `map_abbreviated_coordinators`. -/
def mapAbbreviatedCoordinators : List (String × String) :=
  [("bw", SettingsConstants.COORDINATOR__BLUE_WALLET),
   ("sw", SettingsConstants.COORDINATOR__SPARROW),
   ("sd", SettingsConstants.COORDINATOR__SPECTER_DESKTOP)]

/-- The element-wise list translation `for v in values: mapped =
abbreviation_map.get(v); if not mapped: return`. -/
def mapAll (tbl : List (String × String)) : List String → Option (List String)
  | [] => some []
  | v :: rest =>
    match Py.dget tbl v with
    | none => none
    | some nv =>
      if nv = "" then none
      else (mapAll tbl rest).map (fun ws => nv :: ws)

/-- `convert_abbreviated_value`: translate `settings[key]` through the
abbreviation table into `settings[category][new_key]`.  An untranslated
value returns with the dict unchanged (the `del` has not yet run); a
leaf already sitting under the category name makes the nested item
assignment raise `TypeError`, which the function's own `except`
swallows after the `del`. -/
def convertAbbrev (d : List (String × SVal)) (category key : String)
    (tbl : List (String × String)) (isList : Bool) (newKey : Option String) :
    List (String × SVal) :=
  match Py.dget d key with
  | none => d
  | some (SVal.cat _) => d
  | some (SVal.leaf (LeafVal.list _)) => d
  | some (SVal.leaf (LeafVal.str value)) =>
    let newVal? : Option LeafVal :=
      if !isList then
        match Py.dget tbl value with
        | none => none
        | some nv => if nv = "" then none else some (LeafVal.str nv)
      else
        (mapAll tbl (Py.splitOn value ',')).map LeafVal.list
    match newVal? with
    | none => d
    | some nv =>
      let d := Py.ddel d key
      let key := newKey.getD key
      match Py.dget d category with
      | none => Py.dset d category (SVal.cat [(key, nv)])
      | some (SVal.cat m) => Py.dset d category (SVal.cat (Py.dset m key nv))
      | some (SVal.leaf _) => d

/-- `add`: parse the space-separated `key=value` stream, require
`version == 1`, extract the display name, then translate the
abbreviated keys.  All raised exceptions are caught and yield Invalid,
with whatever partial `settings`/`config_name` state was built. -/
def add (st : SettingsQR) (segment : String) : DecodeQRStatus × SettingsQR :=
  let st := { st with settings := [] }
  let (d, ok) := parseLoop (Py.splitOn segment ' ') []
  if !ok then (DecodeQRStatus.INVALID, { st with settings := d })
  else
    let d := Py.ddel d "type"
    let version := Py.dget d "version"
    let d := Py.ddel d "version"
    match version with
    | some (SVal.leaf (LeafVal.str v)) =>
      if v = "" then (DecodeQRStatus.INVALID, { st with settings := d })
      else
        match Py.pyInt v with
        | none => (DecodeQRStatus.INVALID, { st with settings := d })
        | some n =>
          if n ≠ 1 then (DecodeQRStatus.INVALID, { st with settings := d })
          else
            let nm := Py.dget d "name"
            let d := Py.ddel d "name"
            match nm with
            | some (SVal.leaf (LeafVal.str v)) =>
              let cn := if v = "" then some v
                        else some (String.mk (Py.replaceChar v.data '_' ' '))
              (finish d cn, finishState st d cn)
            | some _ =>
              -- unreachable from the parse loop, which only inserts
              -- plain strings; `.replace` on a non-string would raise
              (DecodeQRStatus.INVALID, { st with settings := d })
            | none => (finish d none, finishState st d none)
    | some _ => (DecodeQRStatus.INVALID, { st with settings := d })
    | none => (DecodeQRStatus.INVALID, { st with settings := d })
where
  /-- The eight `convert_abbreviated_value` calls, in source order. -/
  runConverts (d : List (String × SVal)) : List (String × SVal) :=
    let d := convertAbbrev d "wallet" "coord" mapAbbreviatedCoordinators true
      (some "coordinators")
    let d := convertAbbrev d "features" "xpub" mapAbbreviatedEnable false
      (some "xpub_export")
    let d := convertAbbrev d "features" "sigs" mapAbbreviatedSigTypes true
      (some "sig_types")
    let d := convertAbbrev d "features" "scripts" mapAbbreviatedScripts true
      (some "script_types")
    let d := convertAbbrev d "features" "xp_det" mapAbbreviatedEnable false
      (some "show_xpub_details")
    let d := convertAbbrev d "features" "passphrase" mapAbbreviatedEnable false
      none
    let d := convertAbbrev d "features" "priv_warn" mapAbbreviatedEnable false
      (some "show_privacy_warnings")
    convertAbbrev d "features" "dire_warn" mapAbbreviatedEnable false
      (some "show_dire_warnings")
  finish (_ : List (String × SVal)) (_ : Option String) : DecodeQRStatus :=
    DecodeQRStatus.COMPLETE
  finishState (st : SettingsQR) (d : List (String × SVal))
      (cn : Option String) : SettingsQR :=
    { st with settings := runConverts d, config_name := cn,
              complete := true, collected_segments := 1 }

end SettingsQR

/-! ## Address decoder (`BitcoinAddressQR`) -/

/-- State of `BitcoinAddressQR`. -/
structure BitcoinAddressQR where
  total_segments : Nat
  collected_segments : Nat
  complete : Bool
  address : Option String
  address_type : Option String
  deriving DecidableEq, Repr

namespace BitcoinAddressQR

/-- `__init__`. -/
def init : BitcoinAddressQR := ⟨1, 0, false, none, none⟩

/-- `add`: loose search for an address-shaped substring (stored in
`address` immediately), then the anchored full-string re-check; the
address-type tag comes from the matched alternation group. -/
def add (st : BitcoinAddressQR) (segment : String) :
    DecodeQRStatus × BitcoinAddressQR :=
  match Frames.addrSearch segment.data with
  | none => (DecodeQRStatus.INVALID, st)
  | some m =>
    let st := { st with address := some (String.mk m) }
    if Frames.addrAnchored m then
      let p := (Frames.addrAltAt m).map (fun pr => String.mk pr.1)
      let atype : Option String :=
        if p = some "1" then some "P2PKH-main"
        else if p = some "m" || p = some "n" then some "P2PKH-test"
        else if p = some "3" then some "P2SH-main"
        else if p = some "2" then some "P2SH-test"
        else if p = some "bc1" then some "Bech32-main"
        else if p = some "tb1" then some "Bech32-test"
        else st.address_type
      (DecodeQRStatus.COMPLETE,
       { st with complete := true, collected_segments := 1,
                 address_type := atype })
    else (DecodeQRStatus.INVALID, st)

/-- `getAddress`. -/
def getAddress (st : BitcoinAddressQR) : Option String := st.address

/-- `getAddressType`: `"Unknown"` when an address is present without a
recognized prefix tag. -/
def getAddressType (st : BitcoinAddressQR) : Option String :=
  match st.address with
  | none => none
  | some _ => some (st.address_type.getD "Unknown")

end BitcoinAddressQR

/-! ## Wallet-descriptor reassembler (`SpecterDecodeWalletQR`) -/

/-- State of `SpecterDecodeWalletQR`. -/
structure SpecterDecodeWalletQR where
  total_segments : Option Nat
  collected_segments : Nat
  complete : Bool
  segments : List (Option String)
  deriving DecidableEq, Repr

namespace SpecterDecodeWalletQR

/-- `__init__`. -/
def init : SpecterDecodeWalletQR := ⟨none, 0, false, []⟩

/-- `currentSegmentNum`: group 1 of the `pXofY ` header, or `1` for an
unframed wallet frame; a frame that does not classify as
`SPECTERWALLETQR` falls off the function (Python `None`). -/
def currentSegmentNum (psbtOk : List Nat → Bool) (segment : String) :
    Except PyExc (Option Nat) := do
  let t ← DecodeQR.SegmentType psbtOk segment none
  if t = QRType.SPECTERWALLETQR then
    match Frames.specterParse segment.data with
    | some (cur, _, _) => pure (some cur)
    | none => pure (some 1)
  else pure none

/-- `totalSegmentNum`: group 2, or `1`, or Python `None` on a
non-wallet frame. -/
def totalSegmentNum (psbtOk : List Nat → Bool) (segment : String) :
    Except PyExc (Option Nat) := do
  let t ← DecodeQR.SegmentType psbtOk segment none
  if t = QRType.SPECTERWALLETQR then
    match Frames.specterParse segment.data with
    | some (_, tot, _) => pure (some tot)
    | none => pure (some 1)
  else pure none

/-- `parseSegment`: group 3 of `^p(\d+)of(\d+) (.+$)` (IGNORECASE; `.`
excludes newlines, `$` also matches before one trailing newline); if
the regex fails the whole frame is the payload. -/
def parseSegment (s : String) : String :=
  match Frames.specterParse s.data with
  | some (_, _, body) =>
    let body' := if body.getLast? = some '\n' then body.dropLast else body
    if body'.isEmpty || body'.contains '\n' then s else String.mk body'
  | none => s

/-- `validateJson`: join the segments (raising `TypeError` on an empty
slot — only `json.decoder.JSONDecodeError` is caught) and try the
external JSON parser. -/
def validateJson (jsonParse : String → Option (List (String × String)))
    (st : SpecterDecodeWalletQR) : Except PyExc Bool := do
  let j ← Py.pyJoinOpt st.segments
  pure (jsonParse j).isSome

/-- `validateWalletDescriptor`: valid JSON containing a `descriptor`
key (Python returns `None`, i.e. falsy, when the JSON is invalid). -/
def validateWalletDescriptor
    (jsonParse : String → Option (List (String × String)))
    (st : SpecterDecodeWalletQR) : Except PyExc Bool := do
  if ← validateJson jsonParse st then
    let j ← Py.pyJoinOpt st.segments
    match jsonParse j with
    | some data => pure (Py.dmem data "descriptor")
    | none => pure false
  else pure false

/-- `add`: the shared reassembler pattern, with JSON validation at the
completion step; a fully collected but invalid set reports Invalid and
leaves `complete` false. -/
def add (psbtOk : List Nat → Bool)
    (jsonParse : String → Option (List (String × String)))
    (st : SpecterDecodeWalletQR) (segment : String) :
    Except PyExc (DecodeQRStatus × SpecterDecodeWalletQR) := do
  let st ←
    match st.total_segments with
    | none => do
      let t? ← totalSegmentNum psbtOk segment
      match t? with
      | none =>
        throw (PyExc.typeError "cannot multiply sequence by non-int NoneType")
      | some t =>
        pure { st with total_segments := some t,
                       segments := List.replicate t none }
    | some t => do
      let t? ← totalSegmentNum psbtOk segment
      if some t ≠ t? then
        throw (PyExc.exc "Specter Desktop segment total changed unexpectedly")
      else pure st
  let cur? ← currentSegmentNum psbtOk segment
  match cur? with
  | none =>
    throw (PyExc.typeError "unsupported operand type: NoneType and int")
  | some cur =>
    let idx : Int := (cur : Int) - 1
    match Py.pyGet st.segments idx with
    | none => throw (PyExc.indexError "list index out of range")
    | some slot =>
      if slot = none then
        let st' := { st with
          segments := Py.pySet st.segments idx (some (parseSegment segment)),
          collected_segments := st.collected_segments + 1 }
        if st'.total_segments = some st'.collected_segments then do
          if ← validateWalletDescriptor jsonParse st' then
            pure (DecodeQRStatus.COMPLETE, { st' with complete := true })
          else pure (DecodeQRStatus.INVALID, st')
        else pure (DecodeQRStatus.PART_COMPLETE, st')
      else pure (DecodeQRStatus.PART_EXISTING, st)

/-- `getWalletDescriptor`: re-validates on every call (joining the
segments, so a partially collected set raises `TypeError`) and returns
the `descriptor` value. -/
def getWalletDescriptor
    (jsonParse : String → Option (List (String × String)))
    (st : SpecterDecodeWalletQR) : Except PyExc (Option String) := do
  if ← validateWalletDescriptor jsonParse st then
    let j ← Py.pyJoinOpt st.segments
    match jsonParse j with
    | some data => pure (Py.dget data "descriptor")
    | none => pure none
  else pure none

end SpecterDecodeWalletQR

/-! ## The `DecodeQR` session facade -/

/-- The external collaborators consumed by the session (spec §6): the
structural PSBT parser, the UR2 fountain decoder interface, the
bc32+CBOR unwrap, the JSON parser, and the seedsigner mnemonic
validator. -/
structure Collab where
  psbtOk : List Nat → Bool
  urIsComplete : List String → Bool
  urResult : List String → List Nat
  bcUnwrap : String → List Nat
  jsonParse : String → Option (List (String × String))
  seedStrOk : String → Bool
  seedListOk : List String → Bool

/-- State of the `DecodeQR` facade: one locked type, a completion flag
and one instance of every sub-decoder (the UR2 decoder is external; its
state is the list of received parts). -/
structure DecodeQR where
  complete : Bool
  qr_type : Option QRType
  ur_received : List String
  specter_qr : SpecterDecodePSBTQR
  legacy_ur : LegacyURDecodeQR
  base64_qr : Base64DecodeQR
  base43_qr : Base43DecodeQR
  address_qr : BitcoinAddressQR
  specter_wallet_qr : SpecterDecodeWalletQR
  settings_qr : SettingsQR
  seedqr : SeedQR
  wordlist : List String

namespace DecodeQR

/-- `__init__(wordlist=...)` with the mandatory wordlist present. -/
def mkSession (wordlist : List String) : DecodeQR :=
  ⟨false, none, [], SpecterDecodePSBTQR.init, LegacyURDecodeQR.init,
   Base64DecodeQR.init, Base43DecodeQR.init, BitcoinAddressQR.init,
   SpecterDecodeWalletQR.init, SettingsQR.init, SeedQR.init wordlist,
   wordlist⟩

/-- Mirror a sub-decoder status into the session completion flag
(`if rt == COMPLETE: self.complete = True`). -/
def mirror (st : DecodeQR) (rt : DecodeQRStatus) : DecodeQR :=
  if rt = DecodeQRStatus.COMPLETE then { st with complete := true } else st

/-- `DecodeQR.addString`: classify the frame, lock or re-check the
session type (a changed type raises), then dispatch to the matching
sub-decoder. -/
def addString (C : Collab) (st : DecodeQR) (qr_str : Option String) :
    Except PyExc (DecodeQRStatus × DecodeQR) :=
  match qr_str with
  | none => Except.ok (DecodeQRStatus.FALSE, st)
  | some s => do
    let t ← SegmentType C.psbtOk s (some st.wordlist)
    let st ←
      match st.qr_type with
      | none => pure { st with qr_type := some t }
      | some t0 =>
        if t0 ≠ t then
          throw (PyExc.exc "QR Fragement Unexpected Type Change")
        else pure st
    match t with
    | QRType.PSBTUR2 =>
      let parts := st.ur_received ++ [s]
      let st := { st with ur_received := parts }
      if C.urIsComplete parts then
        pure (DecodeQRStatus.COMPLETE, { st with complete := true })
      else pure (DecodeQRStatus.PART_COMPLETE, st)
    | QRType.PSBTSPECTER => do
      let (rt, d) ← SpecterDecodePSBTQR.add C.psbtOk st.specter_qr s
      pure (rt, mirror { st with specter_qr := d } rt)
    | QRType.PSBTURLEGACY => do
      let (rt, d) ← LegacyURDecodeQR.add C.psbtOk st.legacy_ur s
      pure (rt, mirror { st with legacy_ur := d } rt)
    | QRType.PSBTBASE64 =>
      let (rt, d) := Base64DecodeQR.add st.base64_qr s
      pure (rt, mirror { st with base64_qr := d } rt)
    | QRType.PSBTBASE43 =>
      let (rt, d) := Base43DecodeQR.add C.psbtOk st.base43_qr s
      pure (rt, mirror { st with base43_qr := d } rt)
    | QRType.SEEDSSQR =>
      let (rt, d) :=
        SeedQR.add C.seedStrOk C.seedListOk st.seedqr s QRType.SEEDSSQR
      pure (rt, mirror { st with seedqr := d } rt)
    | QRType.SETTINGS =>
      let (rt, d) := SettingsQR.add st.settings_qr s
      pure (rt, mirror { st with settings_qr := d } rt)
    | QRType.SEEDMNEMONIC =>
      let (rt, d) :=
        SeedQR.add C.seedStrOk C.seedListOk st.seedqr s QRType.SEEDMNEMONIC
      pure (rt, mirror { st with seedqr := d } rt)
    | QRType.SEED4LETTERMNEMONIC =>
      let (rt, d) := SeedQR.add C.seedStrOk C.seedListOk st.seedqr s
        QRType.SEED4LETTERMNEMONIC
      pure (rt, mirror { st with seedqr := d } rt)
    | QRType.BITCOINADDRESSQR =>
      let (rt, d) := BitcoinAddressQR.add st.address_qr s
      pure (rt, mirror { st with address_qr := d } rt)
    | QRType.SPECTERWALLETQR => do
      let (rt, d) ←
        SpecterDecodeWalletQR.add C.psbtOk C.jsonParse st.specter_wallet_qr s
      pure (rt, mirror { st with specter_wallet_qr := d } rt)
    | _ => pure (DecodeQRStatus.INVALID, st)

/-- `DecodeQR.getDataPSBT`: gated on session completion and a locked
PSBT-family type. -/
def getDataPSBT (C : Collab) (st : DecodeQR) :
    Except PyExc (Option (List Nat)) :=
  if st.complete then
    match st.qr_type with
    | some QRType.PSBTUR2 => Except.ok (some (C.urResult st.ur_received))
    | some QRType.PSBTSPECTER => SpecterDecodePSBTQR.getData st.specter_qr
    | some QRType.PSBTURLEGACY =>
      LegacyURDecodeQR.getData C.bcUnwrap st.legacy_ur
    | some QRType.PSBTBASE64 => Base64DecodeQR.getData st.base64_qr
    | some QRType.PSBTBASE43 => Except.ok (Base43DecodeQR.getData st.base43_qr)
    | _ => Except.ok none
  else Except.ok none

/-- `DecodeQR.getSeedPhrase` (delegates unconditionally). -/
def getSeedPhrase (st : DecodeQR) : List String :=
  SeedQR.getSeedPhrase st.seedqr

/-- `DecodeQR.get_settings_data` (delegates unconditionally, no
completion gate). -/
def get_settings_data (st : DecodeQR) : List (String × SVal) :=
  st.settings_qr.settings

/-- `DecodeQR.get_settings_config_name`. -/
def get_settings_config_name (st : DecodeQR) : Option String :=
  st.settings_qr.config_name

/-- `DecodeQR.getAddress` (delegates unconditionally). -/
def getAddress (st : DecodeQR) : Option String :=
  BitcoinAddressQR.getAddress st.address_qr

/-- `DecodeQR.getAddressType`. -/
def getAddressType (st : DecodeQR) : Option String :=
  BitcoinAddressQR.getAddressType st.address_qr

/-- `DecodeQR.getWalletDescriptor` (delegates unconditionally; the
sub-decoder re-validates, joining the slots). -/
def getWalletDescriptor (C : Collab) (st : DecodeQR) :
    Except PyExc (Option String) :=
  SpecterDecodeWalletQR.getWalletDescriptor C.jsonParse st.specter_wallet_qr

end DecodeQR

/-! ## The xmrsigner `Seed` model (`src/xmrsigner/models/seed.py`) -/

namespace Py

/-- Python `str.split()` with no separator: split on whitespace runs,
dropping empty pieces. -/
def splitWSAux : List Char → List Char → List (List Char)
  | [], acc => if acc.isEmpty then [] else [acc.reverse]
  | c :: rest, acc =>
    if isPySpace c then
      if acc.isEmpty then splitWSAux rest []
      else acc.reverse :: splitWSAux rest []
    else splitWSAux rest (c :: acc)

/-- Python `str.split()` on strings. -/
def splitWS (s : String) : List String :=
  (splitWSAux s.data []).map String.mk

/-- Python `" ".join(words)`. -/
def joinSpace : List String → String
  | [] => ""
  | [w] => w
  | w :: rest => w ++ " " ++ joinSpace rest

end Py

/-- State of the xmrsigner `Seed` after a successful `__init__`. -/
structure Seed where
  wordlist_language_code : String
  mnemonic : List String
  passphrase : Option String
  seed_bytes : List Nat
  deriving DecidableEq, Repr

namespace Seed

/-- `Seed.__init__`.  `moneroHex` stands for the external
`MoneroSeed(mnemonic_str, language).hex` plus `unhexlify` chain
(including the language-name table lookup of the settings constants,
which are not part of the sources): `none` means that chain raised,
which `_generate_seed` converts to `InvalidSeedException`.  `nfkd` is
`unicodedata.normalize('NFKD', ·)`.  A `None` or empty mnemonic and a
word count outside {12, 13, 24, 25} raise before any derivation. -/
def init (moneroHex : String → Option (List Nat)) (nfkd : String → String)
    (mnemonic : Option (List String)) (passphrase : Option String)
    (wordlist_language_code : String) : Except PyExc Seed := do
  let m ←
    match mnemonic with
    | none =>
      throw (PyExc.exc "Must initialize a Seed with a mnemonic List[str]")
    | some m =>
      if m.isEmpty then
        throw (PyExc.exc "Must initialize a Seed with a mnemonic List[str]")
      else pure m
  if !(m.length = 12 || m.length = 13 || m.length = 24 || m.length = 25) then
    throw (PyExc.exc "Mnemonic has not the right amounts of words")
  else do
    let mn := Py.splitWS (nfkd (Py.strip (Py.joinSpace m)))
    let pp : Option String :=
      match passphrase with
      | none => none
      | some p => if p = "" then none else some (nfkd p)
    if pp ≠ none then
      throw (PyExc.exc "Passwords for monero seeds are not yet implemented")
    else
      match moneroHex (Py.joinSpace mn) with
      | none => throw (PyExc.exc "InvalidSeedException")
      | some bs =>
        pure ⟨wordlist_language_code, mn, pp, bs⟩

end Seed

/-- Sequential submission of a list of frames to the Specter-PSBT
reassembler, collecting each `add` status (models a scan loop feeding
the decoder). -/
def SpecterDecodePSBTQR.addAll (psbtOk : List Nat → Bool)
    (st : SpecterDecodePSBTQR) :
    List String → Except PyExc (List DecodeQRStatus × SpecterDecodePSBTQR)
  | [] => Except.ok ([], st)
  | f :: rest => do
    let (rt, st') ← SpecterDecodePSBTQR.add psbtOk st f
    let (rts, stf) ← SpecterDecodePSBTQR.addAll psbtOk st' rest
    pure (rt :: rts, stf)

/-- Sequential submission of a list of frames to the legacy-UR
reassembler. -/
def LegacyURDecodeQR.addAll (psbtOk : List Nat → Bool)
    (st : LegacyURDecodeQR) :
    List String → Except PyExc (List DecodeQRStatus × LegacyURDecodeQR)
  | [] => Except.ok ([], st)
  | f :: rest => do
    let (rt, st') ← LegacyURDecodeQR.add psbtOk st f
    let (rts, stf) ← LegacyURDecodeQR.addAll psbtOk st' rest
    pure (rt :: rts, stf)

/-! ## Helper lemmas -/

@[simp] lemma exBind_ok {ε α β : Type} (x : α) (f : α → Except ε β) :
    (Except.ok x >>= f) = f x := rfl

@[simp] lemma exBind_err {ε α β : Type} (e : ε) (f : α → Except ε β) :
    ((Except.error e : Except ε α) >>= f) = Except.error e := rfl

@[simp] lemma exThrow {ε α : Type} (e : ε) :
    (throw e : Except ε α) = Except.error e := rfl

@[simp] lemma exPure {ε α : Type} (x : α) :
    (pure x : Except ε α) = Except.ok x := rfl

lemma specterParse_head {c : Char} {rest : List Char} {x : Nat × Nat × List Char}
    (h : Frames.specterParse (c :: rest) = some x) : Py.eqCI c 'p' = true := by
  by_cases hc : Py.eqCI c 'p' = true
  · exact hc
  · simp [Frames.specterParse, hc] at h

/-- A well-formed Specter frame classifies as `PSBTSPECTER` (check 2):
check 1 cannot fire because the frame starts with `p`/`P`, not `U`. -/
lemma segmentType_of_specterFrame (psbtOk : List Nat → Bool)
    (w : Option (List String)) (s : String) (cur tot : Nat) (body : List Char)
    (hp : Frames.specterParse s.data = some (cur, tot, body))
    (hne : body ≠ []) (hb : body.all Frames.isB64SegChar = true) :
    DecodeQR.SegmentType psbtOk s w = Except.ok QRType.PSBTSPECTER := by
  have hmatch : Frames.specterB64Match s.data = true := by
    simp [Frames.specterB64Match, hp, hne, hb]
  have hUR : Py.startsWithCI s.data "UR:CRYPTO-PSBT/".data = false := by
    cases hd : s.data with
    | nil => rw [hd] at hp; simp [Frames.specterParse] at hp
    | cons c rest =>
      rw [hd] at hp
      have hc' : c.toLower = 'p' := by
        simpa [Py.eqCI] using specterParse_head hp
      have : Py.eqCI c 'U' = false := by simp [Py.eqCI, hc']
      simp [Py.startsWithCI, this]
  simp [DecodeQR.SegmentType, hUR, hmatch]

lemma specterTotal_of_frame (psbtOk : List Nat → Bool) (s : String)
    (cur tot : Nat) (body : List Char)
    (hp : Frames.specterParse s.data = some (cur, tot, body))
    (hne : body ≠ []) (hb : body.all Frames.isB64SegChar = true) :
    SpecterDecodePSBTQR.totalSegmentNum psbtOk s = Except.ok tot := by
  simp [SpecterDecodePSBTQR.totalSegmentNum,
    segmentType_of_specterFrame psbtOk none s cur tot body hp hne hb, hp]

lemma specterCurrent_of_frame (psbtOk : List Nat → Bool) (s : String)
    (cur tot : Nat) (body : List Char)
    (hp : Frames.specterParse s.data = some (cur, tot, body))
    (hne : body ≠ []) (hb : body.all Frames.isB64SegChar = true) :
    SpecterDecodePSBTQR.currentSegmentNum psbtOk s = Except.ok cur := by
  simp [SpecterDecodePSBTQR.currentSegmentNum,
    segmentType_of_specterFrame psbtOk none s cur tot body hp hne hb, hp]

/-- A trivial instantiation of the external collaborators, used for
concrete evaluations. -/
def trivialCollab : Collab :=
  ⟨fun _ => false, fun _ => false, fun _ => [], fun _ => [], fun _ => none,
   fun _ => false, fun _ => false⟩

/-! ## Claims -/

/-- C4 counterexample: the claim states that `base43Decode "000"` is
exactly the three bytes `00 00 00`; on the code it is not (the final
remaining value contributes a byte and the three leading zero
characters contribute three more). -/
theorem C4_counterexample :
    ¬ (DecodeQR.base43Decode "000" = Except.ok [0, 0, 0]) := by decide

/-- C4 amended: `base43Decode "000"` yields exactly the four bytes
`00 00 00 00` — the byte-extraction loop always appends the final
remaining value (zero here) as one byte, and the leading-zero rule then
appends one `0x00` per leading `'0'` character of the input. -/
theorem C4_amended_zero_decode :
    DecodeQR.base43Decode "000" = Except.ok [0, 0, 0, 0] := by decide

/-- C8: `"type=settings version=1 name=My_Wallet xpub=1"` decodes to
Complete with display name `"My Wallet"` and a settings mapping whose
`features` category maps `xpub_export` to the enabled option, and
`"type=settings version=2"` decodes to Invalid. -/
theorem C8_settings_decode :
    SettingsQR.add SettingsQR.init
        "type=settings version=1 name=My_Wallet xpub=1" =
      (DecodeQRStatus.COMPLETE,
       { total_segments := 1, collected_segments := 1, complete := true,
         settings := [("features",
           SVal.cat [("xpub_export",
             LeafVal.str SettingsConstants.OPTION__ENABLED)])],
         config_name := some "My Wallet" }) ∧
    (SettingsQR.add SettingsQR.init "type=settings version=2").1 =
      DecodeQRStatus.INVALID := by
  exact ⟨by decide, by decide⟩

/-- C2: once a session has locked a type, a later frame whose
classification yields a different type makes `addString` raise the
fatal `QR Fragement Unexpected Type Change` exception — an error value
on the exception channel, not a `DecodeQRStatus`. -/
theorem C2_type_change_fatal (C : Collab) (st : DecodeQR) (s : String)
    (t0 t : QRType) (hlock : st.qr_type = some t0)
    (hseg : DecodeQR.SegmentType C.psbtOk s (some st.wordlist) = Except.ok t)
    (hne : t0 ≠ t) :
    DecodeQR.addString C st (some s) =
      Except.error (PyExc.exc "QR Fragement Unexpected Type Change") := by
  simp [DecodeQR.addString, hseg, hlock, hne]

/-- C2 witness: a session locked to `SETTINGS` receiving a
Specter-PSBT frame. -/
theorem C2_type_change_fatal_witness :
    ({ DecodeQR.mkSession [] with qr_type := some QRType.SETTINGS }
        : DecodeQR).qr_type = some QRType.SETTINGS ∧
    DecodeQR.SegmentType trivialCollab.psbtOk "p2of5 BBBB"
        (some ({ DecodeQR.mkSession [] with
                  qr_type := some QRType.SETTINGS } : DecodeQR).wordlist) =
      Except.ok QRType.PSBTSPECTER ∧
    QRType.SETTINGS ≠ QRType.PSBTSPECTER ∧
    DecodeQR.addString trivialCollab
        { DecodeQR.mkSession [] with qr_type := some QRType.SETTINGS }
        (some "p2of5 BBBB") =
      Except.error (PyExc.exc "QR Fragement Unexpected Type Change") :=
  ⟨rfl, by decide, by decide,
   C2_type_change_fatal trivialCollab _ _ QRType.SETTINGS QRType.PSBTSPECTER
     rfl (by decide) (by decide)⟩

/-- C3: a Specter-PSBT reassembly session whose segment total is
already established raises the fatal `segment total changed
unexpectedly` exception when a later well-formed frame reports a
different total, instead of returning the Invalid status. -/
theorem C3_total_mismatch_fatal (psbtOk : List Nat → Bool)
    (st : SpecterDecodePSBTQR) (s : String) (t cur tot : Nat)
    (body : List Char) (hst : st.total_segments = some t)
    (hp : Frames.specterParse s.data = some (cur, tot, body))
    (hne : body ≠ []) (hb : body.all Frames.isB64SegChar = true)
    (hdiff : tot ≠ t) :
    SpecterDecodePSBTQR.add psbtOk st s =
      Except.error
        (PyExc.exc "Specter Desktop segment total changed unexpectedly") := by
  simp [SpecterDecodePSBTQR.add, hst,
    specterTotal_of_frame psbtOk s cur tot body hp hne hb, Ne.symm hdiff]

/-- C3 witness: the spec's own scenario, `p1of3 AAAA` then
`p2of5 BBBB`. -/
theorem C3_total_mismatch_fatal_witness :
    (⟨some 3, 1, false, [some "AAAA", none, none]⟩
        : SpecterDecodePSBTQR).total_segments = some 3 ∧
    Frames.specterParse "p2of5 BBBB".data = some (2, 5, "BBBB".data) ∧
    "BBBB".data ≠ [] ∧ "BBBB".data.all Frames.isB64SegChar = true ∧
    (5 : Nat) ≠ 3 ∧
    SpecterDecodePSBTQR.add (fun _ => false)
        ⟨some 3, 1, false, [some "AAAA", none, none]⟩ "p2of5 BBBB" =
      Except.error
        (PyExc.exc "Specter Desktop segment total changed unexpectedly") :=
  ⟨rfl, by decide, by decide, by decide, by decide,
   C3_total_mismatch_fatal (fun _ => false) _ _ 3 2 5 "BBBB".data rfl
     (by decide) (by decide) (by decide) (by decide)⟩

lemma pyGet_natIdx {α : Type} (l : List α) (cur : Nat) (h : 1 ≤ cur) :
    Py.pyGet l ((cur : Int) - 1) = l.get? (cur - 1) := by
  have h0 : (0 : Int) ≤ (cur : Int) - 1 := by omega
  have ht : ((cur : Int) - 1).toNat = cur - 1 := by omega
  simp [Py.pyGet, h0, ht]

lemma pySet_natIdx {α : Type} (l : List α) (cur : Nat) (v : α) (h : 1 ≤ cur) :
    Py.pySet l ((cur : Int) - 1) v = l.set (cur - 1) v := by
  have h0 : (0 : Int) ≤ (cur : Int) - 1 := by omega
  have ht : ((cur : Int) - 1).toNat = cur - 1 := by omega
  simp [Py.pySet, h0, ht]

lemma specterAdd_existing (psbtOk : List Nat → Bool)
    (st : SpecterDecodePSBTQR) (s : String) (cur tot : Nat) (body : List Char)
    (x : String)
    (hp : Frames.specterParse s.data = some (cur, tot, body))
    (hne : body ≠ []) (hb : body.all Frames.isB64SegChar = true)
    (hst : st.total_segments = some tot) (hcur : 1 ≤ cur)
    (hget : st.segments.get? (cur - 1) = some (some x)) :
    SpecterDecodePSBTQR.add psbtOk st s =
      Except.ok (DecodeQRStatus.PART_EXISTING, st) := by
  have hget' : st.segments[cur - 1]? = some (some x) := by simpa using hget
  simp [SpecterDecodePSBTQR.add, hst, hget',
    specterTotal_of_frame psbtOk s cur tot body hp hne hb,
    specterCurrent_of_frame psbtOk s cur tot body hp hne hb,
    pyGet_natIdx st.segments cur hcur, hget]

lemma specterAdd_fresh (psbtOk : List Nat → Bool)
    (st : SpecterDecodePSBTQR) (s : String) (cur tot : Nat) (body : List Char)
    (hp : Frames.specterParse s.data = some (cur, tot, body))
    (hne : body ≠ []) (hb : body.all Frames.isB64SegChar = true)
    (hst : st.total_segments = some tot) (hcur : 1 ≤ cur)
    (hget : st.segments.get? (cur - 1) = some none) :
    SpecterDecodePSBTQR.add psbtOk st s =
      Except.ok
        ((if tot = st.collected_segments + 1 then DecodeQRStatus.COMPLETE
          else DecodeQRStatus.PART_COMPLETE),
         { st with
            segments :=
              st.segments.set (cur - 1)
                (some (SpecterDecodePSBTQR.parseSegment s)),
            collected_segments := st.collected_segments + 1,
            complete :=
              if tot = st.collected_segments + 1 then true
              else st.complete }) := by
  have hget' : st.segments[cur - 1]? = some none := by simpa using hget
  by_cases hc : tot = st.collected_segments + 1 <;>
    simp [SpecterDecodePSBTQR.add, hst, hget',
      specterTotal_of_frame psbtOk s cur tot body hp hne hb,
      specterCurrent_of_frame psbtOk s cur tot body hp hne hb,
      pyGet_natIdx st.segments cur hcur, hget,
      pySet_natIdx st.segments cur _ hcur, hc]

lemma specterAddAll_trace (psbtOk : List Nat → Bool) :
    ∀ (frames : List String) (st : SpecterDecodePSBTQR) (N : Nat)
      (idx : String → Nat) (body : String → List Char),
    (∀ f ∈ frames, Frames.specterParse f.data = some (idx f, N, body f) ∧
        body f ≠ [] ∧ (body f).all Frames.isB64SegChar = true) →
    (∀ f ∈ frames, 1 ≤ idx f) →
    frames.Pairwise (fun a b => idx a ≠ idx b) →
    (∀ f ∈ frames, st.segments.get? (idx f - 1) = some none) →
    st.total_segments = some N →
    st.collected_segments + frames.length = N →
    frames ≠ [] →
    ∃ stf, SpecterDecodePSBTQR.addAll psbtOk st frames =
        Except.ok
          (List.replicate (frames.length - 1) DecodeQRStatus.PART_COMPLETE ++
            [DecodeQRStatus.COMPLETE], stf) ∧
      stf.complete = true ∧ stf.collected_segments = N := by
  intro frames
  induction frames with
  | nil => intro st N idx body _ _ _ _ _ _ hnil; exact absurd rfl hnil
  | cons f rest ih =>
    intro st N idx body hw hr hdist hempty htot hcnt _
    obtain ⟨hpf, hnef, hbf⟩ := hw f (by simp)
    have hcurf : 1 ≤ idx f := hr f (by simp)
    have hgetf := hempty f (by simp)
    have hstep := specterAdd_fresh psbtOk st f (idx f) N (body f)
      hpf hnef hbf htot hcurf hgetf
    cases rest with
    | nil =>
      have hN : N = st.collected_segments + 1 := by
        simpa using hcnt.symm
      refine ⟨{ st with
          segments := st.segments.set (idx f - 1)
            (some (SpecterDecodePSBTQR.parseSegment f)),
          collected_segments := st.collected_segments + 1,
          complete := true }, ?_, rfl, hN.symm⟩
      simp [SpecterDecodePSBTQR.addAll, hstep, if_pos hN]
    | cons g rest' =>
      have hNne : ¬ (N = st.collected_segments + 1) := by
        simp at hcnt; omega
      set st' : SpecterDecodePSBTQR :=
        { st with
            segments := st.segments.set (idx f - 1)
              (some (SpecterDecodePSBTQR.parseSegment f)),
            collected_segments := st.collected_segments + 1,
            complete := st.complete } with hst'
      have hstep' : SpecterDecodePSBTQR.add psbtOk st f =
          Except.ok (DecodeQRStatus.PART_COMPLETE, st') := by
        rw [hstep]; simp [if_neg hNne, hst']
      have hih := ih st' N idx body
        (fun h hm => hw h (by simp [hm]))
        (fun h hm => hr h (by simp [hm]))
        (List.Pairwise.of_cons hdist)
        (by
          intro h hm
          have hne : idx f ≠ idx h := by
            have := List.rel_of_pairwise_cons hdist hm
            exact this
          have hne' : idx f - 1 ≠ idx h - 1 := by
            have h1f := hr f (by simp)
            have h1h := hr h (by simp [hm])
            omega
          have := hempty h (by simp [hm])
          rw [hst']
          simp only [List.get?_eq_getElem?] at this ⊢
          rw [List.getElem?_set_ne hne']
          exact this)
        (by simp [hst', htot])
        (by simp [hst']; simp at hcnt; omega)
        (by simp)
      obtain ⟨stf, haddall, hcompl, hcoll⟩ := hih
      refine ⟨stf, ?_, hcompl, hcoll⟩
      rw [show SpecterDecodePSBTQR.addAll psbtOk st (f :: g :: rest') = (do
          let (rt, st') ← SpecterDecodePSBTQR.add psbtOk st f
          let (rts, stfin) ←
            SpecterDecodePSBTQR.addAll psbtOk st' (g :: rest')
          pure (rt :: rts, stfin)) from rfl]
      rw [hstep']
      simp only [exBind_ok]
      rw [haddall]
      simp [List.replicate_succ]

lemma startsWithCI_cons {cs : List Char} {l : Char} {ls : List Char}
    (h : Py.startsWithCI cs (l :: ls) = true) :
    ∃ c cs', cs = c :: cs' ∧ Py.eqCI c l = true ∧
      Py.startsWithCI cs' ls = true := by
  cases cs with
  | nil => simp [Py.startsWithCI] at h
  | cons c cs' =>
    simp [Py.startsWithCI] at h
    exact ⟨c, cs', rfl, h.1, h.2⟩

lemma urBytesParse_start {cs : List Char} {x : Nat × Nat}
    (h : Frames.urBytesParse cs = some x) :
    Py.startsWithCI cs "UR:BYTES/".data = true := by
  by_cases hs : Py.startsWithCI cs "UR:BYTES/".data = true
  · exact hs
  · simp [Frames.urBytesParse, hs] at h

lemma segmentType_of_urFrame (psbtOk : List Nat → Bool)
    (w : Option (List String)) (s : String) (cur tot : Nat)
    (hp : Frames.urBytesParse s.data = some (cur, tot)) :
    DecodeQR.SegmentType psbtOk s w = Except.ok QRType.PSBTURLEGACY := by
  have hstart := urBytesParse_start hp
  obtain ⟨c0, cs1, h0, he0, hr0⟩ := startsWithCI_cons hstart
  obtain ⟨c1, cs2, h1, he1, hr1⟩ := startsWithCI_cons hr0
  obtain ⟨c2, cs3, h2, he2, hr2⟩ := startsWithCI_cons hr1
  obtain ⟨c3, cs4, h3, he3, _⟩ := startsWithCI_cons hr2
  have hc0 : c0.toLower = 'u' := by simpa [Py.eqCI] using he0
  have hc3 : c3.toLower = 'b' := by simpa [Py.eqCI] using he3
  have hCrypto : Py.startsWithCI s.data "UR:CRYPTO-PSBT/".data = false := by
    rw [h0, h1, h2, h3]
    have : Py.eqCI c3 'C' = false := by simp [Py.eqCI, hc3]
    simp [Py.startsWithCI, this]
  have hSpec : Frames.specterB64Match s.data = false := by
    rw [h0]
    have : Py.eqCI c0 'p' = false := by simp [Py.eqCI, hc0]
    simp [Frames.specterB64Match, Frames.specterParse, this]
  simp [DecodeQR.SegmentType, hCrypto, hSpec, hstart]

lemma legacyTotal_of_frame (psbtOk : List Nat → Bool) (s : String)
    (cur tot : Nat) (hp : Frames.urBytesParse s.data = some (cur, tot)) :
    LegacyURDecodeQR.totalSegmentNum psbtOk s = Except.ok tot := by
  simp [LegacyURDecodeQR.totalSegmentNum,
    segmentType_of_urFrame psbtOk none s cur tot hp, hp]

lemma legacyCurrent_of_frame (psbtOk : List Nat → Bool) (s : String)
    (cur tot : Nat) (hp : Frames.urBytesParse s.data = some (cur, tot)) :
    LegacyURDecodeQR.currentSegmentNum psbtOk s = Except.ok cur := by
  simp [LegacyURDecodeQR.currentSegmentNum,
    segmentType_of_urFrame psbtOk none s cur tot hp, hp]

lemma legacyAdd_existing (psbtOk : List Nat → Bool)
    (st : LegacyURDecodeQR) (s : String) (cur tot : Nat) (x : String)
    (hp : Frames.urBytesParse s.data = some (cur, tot))
    (hst : st.total_segments = some tot) (hcur : 1 ≤ cur)
    (hget : st.segments.get? (cur - 1) = some (some x)) :
    LegacyURDecodeQR.add psbtOk st s =
      Except.ok (DecodeQRStatus.PART_EXISTING, st) := by
  have hget' : st.segments[cur - 1]? = some (some x) := by simpa using hget
  simp [LegacyURDecodeQR.add, hst, hget',
    legacyTotal_of_frame psbtOk s cur tot hp,
    legacyCurrent_of_frame psbtOk s cur tot hp,
    pyGet_natIdx st.segments cur hcur]

lemma legacyAdd_fresh (psbtOk : List Nat → Bool)
    (st : LegacyURDecodeQR) (s : String) (cur tot : Nat)
    (hp : Frames.urBytesParse s.data = some (cur, tot))
    (hst : st.total_segments = some tot) (hcur : 1 ≤ cur)
    (hget : st.segments.get? (cur - 1) = some none) :
    LegacyURDecodeQR.add psbtOk st s =
      Except.ok
        ((if tot = st.collected_segments + 1 then DecodeQRStatus.COMPLETE
          else DecodeQRStatus.PART_COMPLETE),
         { st with
            segments :=
              st.segments.set (cur - 1)
                (some (LegacyURDecodeQR.parseSegment s)),
            collected_segments := st.collected_segments + 1,
            complete :=
              if tot = st.collected_segments + 1 then true
              else st.complete }) := by
  have hget' : st.segments[cur - 1]? = some none := by simpa using hget
  by_cases hc : tot = st.collected_segments + 1 <;>
    simp [LegacyURDecodeQR.add, hst, hget',
      legacyTotal_of_frame psbtOk s cur tot hp,
      legacyCurrent_of_frame psbtOk s cur tot hp,
      pyGet_natIdx st.segments cur hcur,
      pySet_natIdx st.segments cur _ hcur, hc]

lemma legacyAddAll_trace (psbtOk : List Nat → Bool) :
    ∀ (frames : List String) (st : LegacyURDecodeQR) (N : Nat)
      (idx : String → Nat),
    (∀ f ∈ frames, Frames.urBytesParse f.data = some (idx f, N)) →
    (∀ f ∈ frames, 1 ≤ idx f) →
    frames.Pairwise (fun a b => idx a ≠ idx b) →
    (∀ f ∈ frames, st.segments.get? (idx f - 1) = some none) →
    st.total_segments = some N →
    st.collected_segments + frames.length = N →
    frames ≠ [] →
    ∃ stf, LegacyURDecodeQR.addAll psbtOk st frames =
        Except.ok
          (List.replicate (frames.length - 1) DecodeQRStatus.PART_COMPLETE ++
            [DecodeQRStatus.COMPLETE], stf) ∧
      stf.complete = true ∧ stf.collected_segments = N := by
  intro frames
  induction frames with
  | nil => intro st N idx _ _ _ _ _ _ hnil; exact absurd rfl hnil
  | cons f rest ih =>
    intro st N idx hw hr hdist hempty htot hcnt _
    have hpf := hw f (by simp)
    have hcurf : 1 ≤ idx f := hr f (by simp)
    have hgetf := hempty f (by simp)
    have hstep := legacyAdd_fresh psbtOk st f (idx f) N hpf htot hcurf hgetf
    cases rest with
    | nil =>
      have hN : N = st.collected_segments + 1 := by
        simpa using hcnt.symm
      refine ⟨{ st with
          segments := st.segments.set (idx f - 1)
            (some (LegacyURDecodeQR.parseSegment f)),
          collected_segments := st.collected_segments + 1,
          complete := true }, ?_, rfl, hN.symm⟩
      simp [LegacyURDecodeQR.addAll, hstep, if_pos hN]
    | cons g rest' =>
      have hNne : ¬ (N = st.collected_segments + 1) := by
        simp at hcnt; omega
      set st' : LegacyURDecodeQR :=
        { st with
            segments := st.segments.set (idx f - 1)
              (some (LegacyURDecodeQR.parseSegment f)),
            collected_segments := st.collected_segments + 1,
            complete := st.complete } with hst'
      have hstep' : LegacyURDecodeQR.add psbtOk st f =
          Except.ok (DecodeQRStatus.PART_COMPLETE, st') := by
        rw [hstep]; simp [if_neg hNne, hst']
      have hih := ih st' N idx
        (fun h hm => hw h (by simp [hm]))
        (fun h hm => hr h (by simp [hm]))
        (List.Pairwise.of_cons hdist)
        (by
          intro h hm
          have hne : idx f ≠ idx h := List.rel_of_pairwise_cons hdist hm
          have hne' : idx f - 1 ≠ idx h - 1 := by
            have h1f := hr f (by simp)
            have h1h := hr h (by simp [hm])
            omega
          have := hempty h (by simp [hm])
          rw [hst']
          simp only [List.get?_eq_getElem?] at this ⊢
          rw [List.getElem?_set_ne hne']
          exact this)
        (by simp [hst', htot])
        (by simp [hst']; simp at hcnt; omega)
        (by simp)
      obtain ⟨stf, haddall, hcompl, hcoll⟩ := hih
      refine ⟨stf, ?_, hcompl, hcoll⟩
      rw [show LegacyURDecodeQR.addAll psbtOk st (f :: g :: rest') = (do
          let (rt, st') ← LegacyURDecodeQR.add psbtOk st f
          let (rts, stfin) ← LegacyURDecodeQR.addAll psbtOk st' (g :: rest')
          pure (rt :: rts, stfin)) from rfl]
      rw [hstep']
      simp only [exBind_ok]
      rw [haddall]
      simp [List.replicate_succ]

lemma specterAdd_seed (psbtOk : List Nat → Bool) (st : SpecterDecodePSBTQR)
    (s : String) (cur tot : Nat) (body : List Char)
    (hp : Frames.specterParse s.data = some (cur, tot, body))
    (hne : body ≠ []) (hb : body.all Frames.isB64SegChar = true)
    (hst : st.total_segments = none) :
    SpecterDecodePSBTQR.add psbtOk st s =
      SpecterDecodePSBTQR.add psbtOk
        { st with total_segments := some tot,
                  segments := List.replicate tot none } s := by
  simp [SpecterDecodePSBTQR.add, hst,
    specterTotal_of_frame psbtOk s cur tot body hp hne hb]

lemma legacyAdd_seed (psbtOk : List Nat → Bool) (st : LegacyURDecodeQR)
    (s : String) (cur tot : Nat)
    (hp : Frames.urBytesParse s.data = some (cur, tot))
    (hst : st.total_segments = none) :
    LegacyURDecodeQR.add psbtOk st s =
      LegacyURDecodeQR.add psbtOk
        { st with total_segments := some tot,
                  segments := List.replicate tot none } s := by
  simp [LegacyURDecodeQR.add, hst, legacyTotal_of_frame psbtOk s cur tot hp]

lemma specterAddAll_fresh (psbtOk : List Nat → Bool)
    (frames : List String) (N : Nat) (idx : String → Nat)
    (body : String → List Char)
    (hw : ∀ f ∈ frames, Frames.specterParse f.data = some (idx f, N, body f) ∧
        body f ≠ [] ∧ (body f).all Frames.isB64SegChar = true)
    (hr : ∀ f ∈ frames, 1 ≤ idx f ∧ idx f ≤ N)
    (hdist : frames.Pairwise (fun a b => idx a ≠ idx b))
    (hlen : frames.length = N) (hnil : frames ≠ []) :
    ∃ stf, SpecterDecodePSBTQR.addAll psbtOk SpecterDecodePSBTQR.init frames =
        Except.ok
          (List.replicate (N - 1) DecodeQRStatus.PART_COMPLETE ++
            [DecodeQRStatus.COMPLETE], stf) ∧
      stf.complete = true ∧ stf.collected_segments = N := by
  cases frames with
  | nil => exact absurd rfl hnil
  | cons f rest =>
    obtain ⟨hpf, hnef, hbf⟩ := hw f (by simp)
    have hseed : SpecterDecodePSBTQR.add psbtOk SpecterDecodePSBTQR.init f =
        SpecterDecodePSBTQR.add psbtOk
          (⟨some N, 0, false, List.replicate N none⟩ : SpecterDecodePSBTQR)
          f := by
      simpa using specterAdd_seed psbtOk SpecterDecodePSBTQR.init f (idx f)
        N (body f) hpf hnef hbf rfl
    have htr := specterAddAll_trace psbtOk (f :: rest)
      (⟨some N, 0, false, List.replicate N none⟩ : SpecterDecodePSBTQR)
      N idx body hw (fun g hg => (hr g hg).1) hdist
      (by
        intro g hg
        have h1 := (hr g hg).1
        have h2 := (hr g hg).2
        have hlt : idx g - 1 < N := by omega
        simp [List.get?_eq_getElem?, List.getElem?_replicate, hlt])
      rfl (by simpa using hlen) (by simp)
    obtain ⟨stf, haddall, hcompl, hcoll⟩ := htr
    refine ⟨stf, ?_, hcompl, hcoll⟩
    rw [show SpecterDecodePSBTQR.addAll psbtOk SpecterDecodePSBTQR.init
        (f :: rest) = (do
        let (rt, st') ←
          SpecterDecodePSBTQR.add psbtOk SpecterDecodePSBTQR.init f
        let (rts, stfin) ← SpecterDecodePSBTQR.addAll psbtOk st' rest
        pure (rt :: rts, stfin)) from rfl]
    rw [hseed]
    rw [show (do
        let (rt, st') ← SpecterDecodePSBTQR.add psbtOk
          (⟨some N, 0, false, List.replicate N none⟩ : SpecterDecodePSBTQR) f
        let (rts, stfin) ← SpecterDecodePSBTQR.addAll psbtOk st' rest
        pure (rt :: rts, stfin)) =
      SpecterDecodePSBTQR.addAll psbtOk
        (⟨some N, 0, false, List.replicate N none⟩ : SpecterDecodePSBTQR)
        (f :: rest) from rfl]
    rw [haddall]
    have hlen' : (f :: rest).length - 1 = N - 1 := by simp [← hlen]
    rw [hlen']

lemma legacyAddAll_fresh (psbtOk : List Nat → Bool)
    (frames : List String) (N : Nat) (idx : String → Nat)
    (hw : ∀ f ∈ frames, Frames.urBytesParse f.data = some (idx f, N))
    (hr : ∀ f ∈ frames, 1 ≤ idx f ∧ idx f ≤ N)
    (hdist : frames.Pairwise (fun a b => idx a ≠ idx b))
    (hlen : frames.length = N) (hnil : frames ≠ []) :
    ∃ stf, LegacyURDecodeQR.addAll psbtOk LegacyURDecodeQR.init frames =
        Except.ok
          (List.replicate (N - 1) DecodeQRStatus.PART_COMPLETE ++
            [DecodeQRStatus.COMPLETE], stf) ∧
      stf.complete = true ∧ stf.collected_segments = N := by
  cases frames with
  | nil => exact absurd rfl hnil
  | cons f rest =>
    have hpf := hw f (by simp)
    have hseed : LegacyURDecodeQR.add psbtOk LegacyURDecodeQR.init f =
        LegacyURDecodeQR.add psbtOk
          (⟨some N, 0, false, List.replicate N none⟩ : LegacyURDecodeQR)
          f := by
      simpa using legacyAdd_seed psbtOk LegacyURDecodeQR.init f (idx f)
        N hpf rfl
    have htr := legacyAddAll_trace psbtOk (f :: rest)
      (⟨some N, 0, false, List.replicate N none⟩ : LegacyURDecodeQR)
      N idx hw (fun g hg => (hr g hg).1) hdist
      (by
        intro g hg
        have h1 := (hr g hg).1
        have h2 := (hr g hg).2
        have hlt : idx g - 1 < N := by omega
        simp [List.get?_eq_getElem?, List.getElem?_replicate, hlt])
      rfl (by simpa using hlen) (by simp)
    obtain ⟨stf, haddall, hcompl, hcoll⟩ := htr
    refine ⟨stf, ?_, hcompl, hcoll⟩
    rw [show LegacyURDecodeQR.addAll psbtOk LegacyURDecodeQR.init
        (f :: rest) = (do
        let (rt, st') ← LegacyURDecodeQR.add psbtOk LegacyURDecodeQR.init f
        let (rts, stfin) ← LegacyURDecodeQR.addAll psbtOk st' rest
        pure (rt :: rts, stfin)) from rfl]
    rw [hseed]
    rw [show (do
        let (rt, st') ← LegacyURDecodeQR.add psbtOk
          (⟨some N, 0, false, List.replicate N none⟩ : LegacyURDecodeQR) f
        let (rts, stfin) ← LegacyURDecodeQR.addAll psbtOk st' rest
        pure (rt :: rts, stfin)) =
      LegacyURDecodeQR.addAll psbtOk
        (⟨some N, 0, false, List.replicate N none⟩ : LegacyURDecodeQR)
        (f :: rest) from rfl]
    rw [haddall]
    have hlen' : (f :: rest).length - 1 = N - 1 := by simp [← hlen]
    rw [hlen']

/-- C6: for the animated-segment reassemblers (Specter-PSBT and
Legacy-UR instances): adding a frame whose segment index is already
filled returns PartExisting and leaves the whole state (in particular
`collected_segments`) unchanged; and feeding all `N` distinct,
well-formed segments of an `N`-segment set to a fresh decoder returns
PartComplete on each of the first `N-1` additions and Complete exactly
once, on the final one. -/
theorem C6_reassembler_idempotent_complete_once :
    (∀ (psbtOk : List Nat → Bool) (st : SpecterDecodePSBTQR) (s : String)
       (cur tot : Nat) (body : List Char) (x : String),
       Frames.specterParse s.data = some (cur, tot, body) →
       body ≠ [] → body.all Frames.isB64SegChar = true →
       st.total_segments = some tot → 1 ≤ cur →
       st.segments.get? (cur - 1) = some (some x) →
       SpecterDecodePSBTQR.add psbtOk st s =
         Except.ok (DecodeQRStatus.PART_EXISTING, st)) ∧
    (∀ (psbtOk : List Nat → Bool) (frames : List String) (N : Nat)
       (idx : String → Nat) (body : String → List Char),
       (∀ f ∈ frames,
         Frames.specterParse f.data = some (idx f, N, body f) ∧
           body f ≠ [] ∧ (body f).all Frames.isB64SegChar = true) →
       (∀ f ∈ frames, 1 ≤ idx f ∧ idx f ≤ N) →
       frames.Pairwise (fun a b => idx a ≠ idx b) →
       frames.length = N → frames ≠ [] →
       ∃ stf,
         SpecterDecodePSBTQR.addAll psbtOk SpecterDecodePSBTQR.init frames =
           Except.ok
             (List.replicate (N - 1) DecodeQRStatus.PART_COMPLETE ++
               [DecodeQRStatus.COMPLETE], stf) ∧
           stf.complete = true ∧ stf.collected_segments = N) ∧
    (∀ (psbtOk : List Nat → Bool) (st : LegacyURDecodeQR) (s : String)
       (cur tot : Nat) (x : String),
       Frames.urBytesParse s.data = some (cur, tot) →
       st.total_segments = some tot → 1 ≤ cur →
       st.segments.get? (cur - 1) = some (some x) →
       LegacyURDecodeQR.add psbtOk st s =
         Except.ok (DecodeQRStatus.PART_EXISTING, st)) ∧
    (∀ (psbtOk : List Nat → Bool) (frames : List String) (N : Nat)
       (idx : String → Nat),
       (∀ f ∈ frames, Frames.urBytesParse f.data = some (idx f, N)) →
       (∀ f ∈ frames, 1 ≤ idx f ∧ idx f ≤ N) →
       frames.Pairwise (fun a b => idx a ≠ idx b) →
       frames.length = N → frames ≠ [] →
       ∃ stf,
         LegacyURDecodeQR.addAll psbtOk LegacyURDecodeQR.init frames =
           Except.ok
             (List.replicate (N - 1) DecodeQRStatus.PART_COMPLETE ++
               [DecodeQRStatus.COMPLETE], stf) ∧
           stf.complete = true ∧ stf.collected_segments = N) :=
  ⟨fun psbtOk st s cur tot body x hp hne hb hst hcur hget =>
     specterAdd_existing psbtOk st s cur tot body x hp hne hb hst hcur hget,
   fun psbtOk frames N idx body hw hr hdist hlen hnil =>
     specterAddAll_fresh psbtOk frames N idx body hw hr hdist hlen hnil,
   fun psbtOk st s cur tot x hp hst hcur hget =>
     legacyAdd_existing psbtOk st s cur tot x hp hst hcur hget,
   fun psbtOk frames N idx hw hr hdist hlen hnil =>
     legacyAddAll_fresh psbtOk frames N idx hw hr hdist hlen hnil⟩

/-- C6 witness: a duplicate `p1of3 AAAA` on a partially filled Specter
session, and full 2-frame runs of both reassemblers. -/
theorem C6_reassembler_idempotent_complete_once_witness :
    (Frames.specterParse "p1of3 AAAA".data = some (1, 3, "AAAA".data) ∧
      "AAAA".data ≠ [] ∧ "AAAA".data.all Frames.isB64SegChar = true ∧
      (⟨some 3, 1, false, [some "AAAA", none, none]⟩
          : SpecterDecodePSBTQR).total_segments = some 3 ∧
      SpecterDecodePSBTQR.add (fun _ => false)
          ⟨some 3, 1, false, [some "AAAA", none, none]⟩ "p1of3 AAAA" =
        Except.ok (DecodeQRStatus.PART_EXISTING,
          ⟨some 3, 1, false, [some "AAAA", none, none]⟩)) ∧
    (["p1of2 AAAA", "p2of2 BBBB"].length = 2 ∧
      ∃ stf, SpecterDecodePSBTQR.addAll (fun _ => false)
          SpecterDecodePSBTQR.init ["p1of2 AAAA", "p2of2 BBBB"] =
        Except.ok
          ([DecodeQRStatus.PART_COMPLETE, DecodeQRStatus.COMPLETE], stf) ∧
        stf.complete = true ∧ stf.collected_segments = 2) ∧
    (∃ stf, LegacyURDecodeQR.addAll (fun _ => false) LegacyURDecodeQR.init
        ["UR:BYTES/1OF2/aaa", "UR:BYTES/2OF2/bbb"] =
      Except.ok
        ([DecodeQRStatus.PART_COMPLETE, DecodeQRStatus.COMPLETE], stf) ∧
      stf.complete = true ∧ stf.collected_segments = 2) := by
  refine ⟨⟨by decide, by decide, by decide, rfl, ?_⟩, ⟨by decide, ?_⟩, ?_⟩
  · exact C6_reassembler_idempotent_complete_once.1 (fun _ => false) _ _ 1 3 "AAAA".data "AAAA" (by decide)
      (by decide) (by decide) rfl (by decide) (by decide)
  · have h := C6_reassembler_idempotent_complete_once.2.1 (fun _ => false) ["p1of2 AAAA", "p2of2 BBBB"] 2
      (fun f => if f = "p1of2 AAAA" then 1 else 2)
      (fun f => if f = "p1of2 AAAA" then "AAAA".data else "BBBB".data)
      (by decide) (by decide) (by decide) (by decide) (by decide)
    simpa using h
  · have h := C6_reassembler_idempotent_complete_once.2.2.2 (fun _ => false)
      ["UR:BYTES/1OF2/aaa", "UR:BYTES/2OF2/bbb"] 2
      (fun f => if f = "UR:BYTES/1OF2/aaa" then 1 else 2)
      (by decide) (by decide) (by decide) (by decide) (by decide)
    simpa using h

/-- Characters emitted by the base64 encoder are never `:` (even case
insensitively) and never a space. -/
def charNotColonSpace (c : Char) : Bool :=
  !(Py.eqCI c ':') && !(c = ' ')

lemma all_getD {P : Char → Bool} :
    ∀ (l : List Char) (n : Nat) (d : Char), l.all P = true → P d = true →
      P (l.getD n d) = true := by
  intro l
  induction l with
  | nil => intro n d _ hd; simp [List.getD]; exact hd
  | cons c rest ih =>
    intro n d hall hd
    simp [List.all_cons] at hall
    cases n with
    | zero => simpa [List.getD] using hall.1
    | succ m => simpa [List.getD] using ih m d (by simp [List.all_eq_true]; exact fun x hx => hall.2 x hx) hd

lemma b64CharOfVal_ok (n : Nat) : charNotColonSpace (Py.b64CharOfVal n) = true := by
  unfold Py.b64CharOfVal
  exact all_getD _ n 'A' (by decide) (by decide)

lemma encChars_ok : ∀ bs : List Nat,
    (Py.b64EncodeBytes bs).all charNotColonSpace = true
  | [] => by simp [Py.b64EncodeBytes]
  | [a] => by
    simp [Py.b64EncodeBytes, b64CharOfVal_ok]
    decide
  | [a, b] => by
    simp [Py.b64EncodeBytes, b64CharOfVal_ok]
    decide
  | a :: b :: c :: rest => by
    simp [Py.b64EncodeBytes, b64CharOfVal_ok]
    simpa [List.all_eq_true] using encChars_ok rest

lemma isBase64_chars_ok {s : String} (h : DecodeQR.isBase64 s = true) :
    s.data.all charNotColonSpace = true := by
  unfold DecodeQR.isBase64 at h
  cases hdec : Py.pyB64Decode s with
  | none => rw [hdec] at h; simp at h
  | some bs =>
    rw [hdec] at h
    have henc : Py.pyB64Encode bs = s := by simpa using h
    have : s.data = Py.b64EncodeBytes bs := by
      rw [← henc]; rfl
    rw [this]
    exact encChars_ok bs

lemma noColon_noURPrefix {cs : List Char}
    (h : cs.all charNotColonSpace = true) (t : List Char) :
    Py.startsWithCI cs ('U' :: 'R' :: ':' :: t) = false := by
  match cs with
  | [] => rfl
  | [c0] => simp [Py.startsWithCI]
  | [c0, c1] => simp [Py.startsWithCI]
  | c0 :: c1 :: c2 :: rest =>
    simp [List.all_cons] at h
    have hc2 : Py.eqCI c2 ':' = false := by
      have := h.2.2.1
      simp [charNotColonSpace] at this
      simpa using this.1
    simp [Py.startsWithCI, hc2]

lemma specterParse_space {cs : List Char} {x : Nat × Nat × List Char}
    (h : Frames.specterParse cs = some x) : ' ' ∈ cs := by
  unfold Frames.specterParse at h
  cases cs with
  | nil => simp at h
  | cons c rest =>
    by_cases hc : Py.eqCI c 'p' = true
    · simp only [hc, if_true] at h
      split at h
      · simp at h
      · split at h
        · rename_i o f rest2 heq2
          split at h
          · split at h
            · simp at h
            · split at h
              · rename_i body heq3
                have hmem : ' ' ∈ rest2.drop
                    ((rest2.takeWhile Py.isDig).length) := by
                  rw [heq3]; simp
                have hmem2 : ' ' ∈ rest2 := List.drop_subset _ _ hmem
                have hmem3 : ' ' ∈ rest.drop
                    ((rest.takeWhile Py.isDig).length) := by
                  rw [heq2]; simp [hmem2]
                have : ' ' ∈ rest := List.drop_subset _ _ hmem3
                simp [this]
              · simp at h
          · simp at h
        · simp at h
    · simp [hc] at h

@[simp] lemma exMap_ok {ε α β : Type} (f : α → β) (x : α) :
    Except.map f (Except.ok x : Except ε α) = Except.ok (f x) := rfl

@[simp] lemma exMap_err {ε α β : Type} (f : α → β) (e : ε) :
    Except.map f (Except.error e : Except ε α) = Except.error e := rfl

lemma segmentType_of_base64PSBT (psbtOk : List Nat → Bool)
    (w : Option (List String)) (s : String) (bs : List Nat)
    (hdec : Py.pyB64Decode s = some bs)
    (hb64 : DecodeQR.isBase64 s = true) (hpsbt : psbtOk bs = true) :
    DecodeQR.SegmentType psbtOk s w = Except.ok QRType.PSBTBASE64 := by
  have hchars := isBase64_chars_ok hb64
  have h1 : Py.startsWithCI s.data "UR:CRYPTO-PSBT/".data = false := by
    have := noColon_noURPrefix hchars "CRYPTO-PSBT/".data
    simpa using this
  have h3 : Py.startsWithCI s.data "UR:BYTES/".data = false := by
    have := noColon_noURPrefix hchars "BYTES/".data
    simpa using this
  have h2 : Frames.specterB64Match s.data = false := by
    cases hp : Frames.specterParse s.data with
    | none => simp [Frames.specterB64Match, hp]
    | some x =>
      exfalso
      have hsp := specterParse_space hp
      simp [List.all_eq_true] at hchars
      have := hchars ' ' hsp
      simp [charNotColonSpace] at this
  have h4 : DecodeQR.isBase64PSBT psbtOk s = true := by
    simp [DecodeQR.isBase64PSBT, hb64, hdec, hpsbt]
  simp [DecodeQR.SegmentType, h1, h2, h3, h4]

/-- C7: for every valid base64 string whose decoded bytes structurally
parse as a PSBT (external parser `psbtOk`), classification yields
PSBT-Base64, the single-frame base64 decoder accepts it as Complete,
and both the decoder's and the session's decoded bytes equal the direct
base64 decoding of the string (round-trip). -/
theorem C7_base64_psbt_roundtrip (C : Collab) (wl : List String) (s : String) (bs : List Nat)
    (hdec : Py.pyB64Decode s = some bs)
    (hb64 : DecodeQR.isBase64 s = true) (hpsbt : C.psbtOk bs = true) :
    DecodeQR.SegmentType C.psbtOk s (some wl) =
        Except.ok QRType.PSBTBASE64 ∧
    Base64DecodeQR.add Base64DecodeQR.init s =
        (DecodeQRStatus.COMPLETE,
         { total_segments := 1, collected_segments := 1, complete := true,
           data := some s }) ∧
    Base64DecodeQR.getData (Base64DecodeQR.add Base64DecodeQR.init s).2 =
        Except.ok (some bs) ∧
    ∃ st', DecodeQR.addString C (DecodeQR.mkSession wl) (some s) =
        Except.ok (DecodeQRStatus.COMPLETE, st') ∧
      st'.complete = true ∧
      DecodeQR.getDataPSBT C st' = Except.ok (some bs) := by
  have hseg := segmentType_of_base64PSBT C.psbtOk (some wl) s bs hdec hb64 hpsbt
  have hadd : Base64DecodeQR.add Base64DecodeQR.init s =
      (DecodeQRStatus.COMPLETE,
       { total_segments := 1, collected_segments := 1, complete := true,
         data := some s }) := by
    simp [Base64DecodeQR.add, hb64, Base64DecodeQR.init]
  refine ⟨hseg, hadd, ?_, ?_⟩
  · rw [hadd]
    simp [Base64DecodeQR.getData, Py.a2bBase64, hdec]
  · refine ⟨{ DecodeQR.mkSession wl with
        complete := true,
        qr_type := some QRType.PSBTBASE64,
        base64_qr := { total_segments := 1, collected_segments := 1,
                       complete := true, data := some s } }, ?_, ?_, ?_⟩
    · show DecodeQR.addString C (DecodeQR.mkSession wl) (some s) = _
      simp only [DecodeQR.addString]
      rw [show (DecodeQR.mkSession wl).wordlist = wl from rfl]
      rw [hseg]
      simp only [exBind_ok]
      rw [show (DecodeQR.mkSession wl).qr_type = none from rfl]
      simp only [exPure, exBind_ok]
      rw [show (DecodeQR.mkSession wl).base64_qr = Base64DecodeQR.init
        from rfl]
      simp [hadd, DecodeQR.mirror]
    · rfl
    · show DecodeQR.getDataPSBT C _ = _
      simp [DecodeQR.getDataPSBT, Base64DecodeQR.getData,
        Py.a2bBase64, hdec]

/-- C7 witness: the 8-character base64 PSBT header frame `cHNidP8=`
with an accepting structural parser. -/
theorem C7_base64_psbt_roundtrip_witness :
    Py.pyB64Decode "cHNidP8=" = some [112, 115, 98, 116, 255] ∧
    DecodeQR.isBase64 "cHNidP8=" = true ∧
    ((⟨fun _ => true, fun _ => false, fun _ => [], fun _ => [],
        fun _ => none, fun _ => false, fun _ => false⟩ : Collab).psbtOk
      [112, 115, 98, 116, 255] = true) ∧
    (DecodeQR.SegmentType
        (⟨fun _ => true, fun _ => false, fun _ => [], fun _ => [],
          fun _ => none, fun _ => false, fun _ => false⟩ : Collab).psbtOk
        "cHNidP8=" (some []) = Except.ok QRType.PSBTBASE64 ∧
      Base64DecodeQR.add Base64DecodeQR.init "cHNidP8=" =
        (DecodeQRStatus.COMPLETE,
         { total_segments := 1, collected_segments := 1, complete := true,
           data := some "cHNidP8=" }) ∧
      Base64DecodeQR.getData
          (Base64DecodeQR.add Base64DecodeQR.init "cHNidP8=").2 =
        Except.ok (some [112, 115, 98, 116, 255]) ∧
      ∃ st', DecodeQR.addString
          (⟨fun _ => true, fun _ => false, fun _ => [], fun _ => [],
            fun _ => none, fun _ => false, fun _ => false⟩ : Collab)
          (DecodeQR.mkSession []) (some "cHNidP8=") =
            Except.ok (DecodeQRStatus.COMPLETE, st') ∧
        st'.complete = true ∧
        DecodeQR.getDataPSBT
            (⟨fun _ => true, fun _ => false, fun _ => [], fun _ => [],
              fun _ => none, fun _ => false, fun _ => false⟩ : Collab) st' =
          Except.ok (some [112, 115, 98, 116, 255])) :=
  ⟨by decide, by decide, rfl,
   C7_base64_psbt_roundtrip ⟨fun _ => true, fun _ => false, fun _ => [], fun _ => [],
      fun _ => none, fun _ => false, fun _ => false⟩ [] "cHNidP8="
     [112, 115, 98, 116, 255] (by decide) (by decide) rfl⟩

lemma dropWhile_of_head_false {p : Char → Bool} :
    ∀ (l : List Char), l.all (fun c => !(p c)) = true → l.dropWhile p = l
  | [], _ => rfl
  | c :: rest, h => by
    simp [List.all_cons] at h
    simp [List.dropWhile, h.1]

lemma stripChars_of_digits {cs : List Char} (h : cs.all Py.isDig = true) :
    Py.stripChars cs = cs := by
  have hns : cs.all (fun c => !(Py.isPySpace c)) = true := by
    simp [List.all_eq_true] at h ⊢
    intro c hc
    have := h c hc
    simp [Py.isDig] at this
    simp [Py.isPySpace]
    and_intros <;> (intro he; rw [he] at this; revert this; decide)
  unfold Py.stripChars
  rw [dropWhile_of_head_false cs hns]
  rw [dropWhile_of_head_false cs.reverse (by simpa using hns)]
  simp

lemma intBody_digits :
    ∀ cs : List Char, cs ≠ [] → cs.all Py.isDig = true →
      Py.intBodyDigits cs = some cs
  | [], h, _ => absurd rfl h
  | [c], _, hall => by
    simp [List.all_cons] at hall
    simp [Py.intBodyDigits, hall]
  | c :: d :: rest, _, hall => by
    have hall' := hall
    simp [List.all_cons] at hall
    have hd : ¬ (d = '_') := by
      intro he
      have := hall.2.1
      rw [he] at this
      revert this; decide
    have hrec := intBody_digits (d :: rest) (by simp)
      (by simp [List.all_cons]; exact ⟨hall.2.1, hall.2.2⟩)
    simp [Py.intBodyDigits, hall.1, hd, hrec]

lemma pyInt_digits {cs : List Char} (hne : cs ≠ [])
    (h : cs.all Py.isDig = true) :
    Py.pyInt (String.mk cs) = some (Int.ofNat (Py.digitsToNat cs)) := by
  unfold Py.pyInt
  rw [show (String.mk cs).data = cs from rfl]
  rw [stripChars_of_digits h]
  have hbody := intBody_digits cs hne h
  match cs, hne with
  | c :: rest, _ =>
    have hc : Py.isDig c = true := by simp [List.all_cons] at h; exact h.1
    have hcp : ¬ (c = '+') := by intro he; rw [he] at hc; revert hc; decide
    have hcm : ¬ (c = '-') := by intro he; rw [he] at hc; revert hc; decide
    simp only []
    split
    · rename_i heq; exact absurd (by injection heq) hcp
    · rename_i heq; exact absurd (by injection heq) hcm
    · rw [hbody]

lemma pyGet_ofNat {α : Type} (l : List α) (v : Nat) :
    Py.pyGet l (Int.ofNat v) = l.get? v := by
  simp [Py.pyGet]

lemma slice_digits {cs : List Char} (h : cs.all Py.isDig = true)
    (a b : Nat) : (Py.sliceChars cs a b).all Py.isDig = true := by
  simp [List.all_eq_true] at h ⊢
  intro x hx
  exact h x (List.drop_subset _ _ (List.take_subset _ _ hx))

lemma slice_len {cs : List Char} {a b : Nat} (_hab : a ≤ b)
    (hb : b ≤ cs.length) : (Py.sliceChars cs a b).length = b - a := by
  simp [Py.sliceChars]
  omega

lemma seedLoop_ok (wl : List String) (cs : List Char)
    (hdig : cs.all Py.isDig = true) :
    ∀ (n i : Nat) (acc : List String),
      (∀ j, j < n → (i + j) * 4 + 4 ≤ cs.length) →
      (∀ j, j < n →
        Py.digitsToNat (Py.sliceChars cs ((i + j) * 4) ((i + j) * 4 + 4)) <
          wl.length) →
      (SeedQR.seedDigitsLoop wl cs i n acc).2 = true ∧
        (SeedQR.seedDigitsLoop wl cs i n acc).1.length = acc.length + n := by
  intro n
  induction n with
  | zero => intro i acc _ _; simp [SeedQR.seedDigitsLoop]
  | succ m ih =>
    intro i acc hlen hval
    have hlen0 : i * 4 + 4 ≤ cs.length := by
      have := hlen 0 (by omega); simpa using this
    have hsdig := slice_digits hdig (i * 4) (i * 4 + 4)
    have hslen : (Py.sliceChars cs (i * 4) (i * 4 + 4)).length = 4 := by
      have := slice_len (show i * 4 ≤ i * 4 + 4 by omega) hlen0
      omega
    have hsne : Py.sliceChars cs (i * 4) (i * 4 + 4) ≠ [] := by
      intro he; rw [he] at hslen; simp at hslen
    have hval0 :
        Py.digitsToNat (Py.sliceChars cs (i * 4) (i * 4 + 4)) < wl.length := by
      have := hval 0 (by omega); simpa using this
    have hget : wl.get? (Py.digitsToNat (Py.sliceChars cs (i * 4) (i * 4 + 4)))
        = some (wl.get ⟨_, hval0⟩) := by
      rw [List.get?_eq_get hval0]
    have hstep : SeedQR.seedDigitsLoop wl cs i (m + 1) acc =
        SeedQR.seedDigitsLoop wl cs (i + 1) m (acc ++ [wl.get ⟨_, hval0⟩]) := by
      simp only [SeedQR.seedDigitsLoop]
      rw [pyInt_digits hsne hsdig]
      simp only [pyGet_ofNat, hget]
    rw [hstep]
    have := ih (i + 1) (acc ++ [wl.get ⟨_, hval0⟩])
      (by intro j hj; have := hlen (j + 1) (by omega)
          have he : (i + 1 + j) = (i + (j + 1)) := by omega
          rw [he]; exact this)
      (by intro j hj; have := hval (j + 1) (by omega)
          have he : (i + 1 + j) = (i + (j + 1)) := by omega
          rw [he]; exact this)
    refine ⟨this.1, ?_⟩
    rw [this.2]
    simp
    omega

lemma seedLoop_fail (wl : List String) (cs : List Char)
    (hdig : cs.all Py.isDig = true) :
    ∀ (n i : Nat) (acc : List String),
      (∀ j, j < n → (i + j) * 4 + 4 ≤ cs.length) →
      (∃ j, j < n ∧ wl.length ≤
        Py.digitsToNat (Py.sliceChars cs ((i + j) * 4) ((i + j) * 4 + 4))) →
      (SeedQR.seedDigitsLoop wl cs i n acc).2 = false := by
  intro n
  induction n with
  | zero => intro i acc _ hex; obtain ⟨j, hj, _⟩ := hex; omega
  | succ m ih =>
    intro i acc hlen hex
    have hlen0 : i * 4 + 4 ≤ cs.length := by
      have := hlen 0 (by omega); simpa using this
    have hsdig := slice_digits hdig (i * 4) (i * 4 + 4)
    have hslen : (Py.sliceChars cs (i * 4) (i * 4 + 4)).length = 4 := by
      have := slice_len (show i * 4 ≤ i * 4 + 4 by omega) hlen0
      omega
    have hsne : Py.sliceChars cs (i * 4) (i * 4 + 4) ≠ [] := by
      intro he; rw [he] at hslen; simp at hslen
    by_cases hv0 : Py.digitsToNat (Py.sliceChars cs (i * 4) (i * 4 + 4)) <
        wl.length
    · have hget : wl.get? (Py.digitsToNat (Py.sliceChars cs (i * 4) (i * 4 + 4)))
          = some (wl.get ⟨_, hv0⟩) := by
        rw [List.get?_eq_get hv0]
      have hstep : SeedQR.seedDigitsLoop wl cs i (m + 1) acc =
          SeedQR.seedDigitsLoop wl cs (i + 1) m (acc ++ [wl.get ⟨_, hv0⟩]) := by
        simp only [SeedQR.seedDigitsLoop]
        rw [pyInt_digits hsne hsdig]
        simp only [pyGet_ofNat, hget]
      rw [hstep]
      apply ih
      · intro j hj
        have := hlen (j + 1) (by omega)
        have he : (i + 1 + j) = (i + (j + 1)) := by omega
        rw [he]; exact this
      · obtain ⟨j, hj, hge⟩ := hex
        cases j with
        | zero => exfalso; simp at hge; omega
        | succ j' =>
          refine ⟨j', by omega, ?_⟩
          have he : (i + 1 + j') = (i + (j' + 1)) := by omega
          rw [he]; exact hge
    · have hget : wl.get? (Py.digitsToNat (Py.sliceChars cs (i * 4) (i * 4 + 4)))
          = none := by
        rw [List.get?_eq_none]
        omega
      simp only [SeedQR.seedDigitsLoop]
      rw [pyInt_digits hsne hsdig]
      simp only [pyGet_ofNat, hget]

lemma slice_take {cs : List Char} {M a b : Nat} (h : b ≤ M) :
    Py.sliceChars (cs.take M) a b = Py.sliceChars cs a b := by
  unfold Py.sliceChars
  rw [List.drop_take]
  rw [List.take_take]
  congr 1
  omega

lemma seedLoop_take (wl : List String) (cs : List Char) (M : Nat) :
    ∀ (n i : Nat) (acc : List String), (i + n) * 4 ≤ M →
      SeedQR.seedDigitsLoop wl (cs.take M) i n acc =
        SeedQR.seedDigitsLoop wl cs i n acc := by
  intro n
  induction n with
  | zero => intro i acc _; simp [SeedQR.seedDigitsLoop]
  | succ m ih =>
    intro i acc hle
    have hs : Py.sliceChars (cs.take M) (i * 4) (i * 4 + 4) =
        Py.sliceChars cs (i * 4) (i * 4 + 4) :=
      slice_take (by omega)
    simp only [SeedQR.seedDigitsLoop, hs]
    cases Py.pyInt (String.mk (Py.sliceChars cs (i * 4) (i * 4 + 4))) with
    | none => rfl
    | some idx =>
      dsimp only
      cases Py.pyGet wl idx with
      | none => rfl
      | some w => exact ih (i + 1) (acc ++ [w]) (by omega)

lemma c5_truncation (sOk : String → Bool) (lOk : List String → Bool)
    (st : SeedQR) (seg : String) :
    SeedQR.add sOk lOk st seg QRType.SEEDSSQR =
      SeedQR.add sOk lOk st
        (String.mk (seg.data.take (4 * (seg.data.length / 4))))
        QRType.SEEDSSQR := by
  have hk : (seg.data.take (4 * (seg.data.length / 4))).length / 4 =
      seg.data.length / 4 := by
    rw [List.length_take]
    omega
  have hloop := seedLoop_take st.wordlist seg.data
    (4 * (seg.data.length / 4)) (seg.data.length / 4) 0 [] (by omega)
  simp only [SeedQR.add]
  rw [hk, hloop]

lemma c5_all_valid (sOk : String → Bool) (lOk : List String → Bool)
    (wl : List String) (seg : String)
    (hdig : seg.data.all Py.isDig = true)
    (hval : ∀ j, j < seg.data.length / 4 →
      Py.digitsToNat (Py.sliceChars seg.data (j * 4) (j * 4 + 4)) <
        wl.length) :
    (SeedQR.add sOk lOk (SeedQR.init wl) seg QRType.SEEDSSQR).1 =
      (if seg.data.length / 4 = 12 ∨ seg.data.length / 4 = 24 then
        DecodeQRStatus.COMPLETE else DecodeQRStatus.INVALID) := by
  set n := seg.data.length / 4 with hn
  have hok := seedLoop_ok wl seg.data hdig n 0 []
    (by intro j hj; simp only [Nat.zero_add]; omega)
    (by intro j hj; simp only [Nat.zero_add]; exact hval j hj)
  set P := SeedQR.seedDigitsLoop wl seg.data 0 n [] with hP
  have hPeq : P = (P.1, true) := by
    rw [← hok.1]
  have hlen : P.1.length = n := by simpa using hok.2
  simp only [SeedQR.add]
  rw [show (SeedQR.init wl).wordlist = wl from rfl]
  rw [← hP, hPeq]
  simp only [Bool.not_true]
  by_cases h1224 : n = 12 ∨ n = 24
  · have hpos : P.1.length > 0 := by omega
    have h12 : SeedQR.is1224 P.1 = true := by
      simp [SeedQR.is1224, hlen]; omega
    simp [hpos, h12, h1224]
  · by_cases hz : n = 0
    · have : P.1.length = 0 := by omega
      simp [this, hz, h1224]
    · have hpos : P.1.length > 0 := by omega
      have h12 : SeedQR.is1224 P.1 = false := by
        simp [SeedQR.is1224, hlen]; omega
      simp [hpos, h12, h1224]

lemma c5_out_of_range (sOk : String → Bool) (lOk : List String → Bool)
    (wl : List String) (seg : String)
    (hdig : seg.data.all Py.isDig = true)
    (hbad : ∃ j, j < seg.data.length / 4 ∧ wl.length ≤
      Py.digitsToNat (Py.sliceChars seg.data (j * 4) (j * 4 + 4))) :
    (SeedQR.add sOk lOk (SeedQR.init wl) seg QRType.SEEDSSQR).1 =
      DecodeQRStatus.INVALID ∧
    SeedQR.getSeedPhrase
      (SeedQR.add sOk lOk (SeedQR.init wl) seg QRType.SEEDSSQR).2 = [] := by
  set n := seg.data.length / 4 with hn
  have hfail := seedLoop_fail wl seg.data hdig n 0 []
    (by intro j hj; simp only [Nat.zero_add]; omega)
    (by obtain ⟨j, hj, hge⟩ := hbad
        exact ⟨j, hj, by simpa using hge⟩)
  set P := SeedQR.seedDigitsLoop wl seg.data 0 n [] with hP
  have hPeq : P = (P.1, false) := by
    rw [← hfail]
  simp only [SeedQR.add]
  rw [show (SeedQR.init wl).wordlist = wl from rfl]
  rw [← hP, hPeq]
  simp [SeedQR.getSeedPhrase, SeedQR.init]

/-- C5 counterexample: the claim requires any input whose length is not
a multiple of 4 to be rejected as Invalid; the code instead truncates
(`num_words = int(len(segment)/4)`): a 49-character input (twelve valid
groups plus one trailing character) decodes Complete. -/
theorem C5_counterexample :
    ("0000000000000000000000000000000000000000000000001"
      : String).data.length % 4 ≠ 0 ∧
    (SeedQR.add (fun _ => false) (fun _ => false)
        (SeedQR.init ["alpha", "beta"])
        "0000000000000000000000000000000000000000000000001"
        QRType.SEEDSSQR).1 = DecodeQRStatus.COMPLETE :=
  ⟨by decide, by decide⟩

/-- C5 amended: the numeric decode truncates the input to
`⌊len/4⌋` four-character groups, silently ignoring trailing characters
(so a non-multiple-of-4 length is not itself rejected); with all-digit
input, each group is a direct 0-based wordlist index, an out-of-range
index invalidates the whole decode with no phrase exposed, and an
all-valid decode is Complete exactly when the group count is 12 or
24. -/
theorem C5_amended_numeric_seed :
    (∀ (sOk : String → Bool) (lOk : List String → Bool) (st : SeedQR)
       (seg : String),
       SeedQR.add sOk lOk st seg QRType.SEEDSSQR =
         SeedQR.add sOk lOk st
           (String.mk (seg.data.take (4 * (seg.data.length / 4))))
           QRType.SEEDSSQR) ∧
    (∀ (sOk : String → Bool) (lOk : List String → Bool)
       (wl : List String) (seg : String),
       seg.data.all Py.isDig = true →
       (∀ j, j < seg.data.length / 4 →
         Py.digitsToNat (Py.sliceChars seg.data (j * 4) (j * 4 + 4)) <
           wl.length) →
       (SeedQR.add sOk lOk (SeedQR.init wl) seg QRType.SEEDSSQR).1 =
         (if seg.data.length / 4 = 12 ∨ seg.data.length / 4 = 24 then
           DecodeQRStatus.COMPLETE else DecodeQRStatus.INVALID)) ∧
    (∀ (sOk : String → Bool) (lOk : List String → Bool)
       (wl : List String) (seg : String),
       seg.data.all Py.isDig = true →
       (∃ j, j < seg.data.length / 4 ∧ wl.length ≤
         Py.digitsToNat (Py.sliceChars seg.data (j * 4) (j * 4 + 4))) →
       (SeedQR.add sOk lOk (SeedQR.init wl) seg QRType.SEEDSSQR).1 =
           DecodeQRStatus.INVALID ∧
         SeedQR.getSeedPhrase
           (SeedQR.add sOk lOk (SeedQR.init wl) seg QRType.SEEDSSQR).2 =
           []) :=
  ⟨c5_truncation, c5_all_valid, c5_out_of_range⟩

/-- C5 witness: a 12-group all-valid input over a 2-word wordlist, and
the same input with one group `9999` out of range. -/
theorem C5_amended_numeric_seed_witness :
    ("000100010001000100010001000100010001000100010001"
      : String).data.all Py.isDig = true ∧
    (∀ j, j <
        ("000100010001000100010001000100010001000100010001"
          : String).data.length / 4 →
      Py.digitsToNat (Py.sliceChars
        ("000100010001000100010001000100010001000100010001"
          : String).data (j * 4) (j * 4 + 4)) <
        (["alpha", "beta"] : List String).length) ∧
    (SeedQR.add (fun _ => false) (fun _ => false)
        (SeedQR.init ["alpha", "beta"])
        "000100010001000100010001000100010001000100010001"
        QRType.SEEDSSQR).1 = DecodeQRStatus.COMPLETE ∧
    ("000100010001000100010001000100010001000199990001"
      : String).data.all Py.isDig = true ∧
    (SeedQR.add (fun _ => false) (fun _ => false)
          (SeedQR.init ["alpha", "beta"])
          "000100010001000100010001000100010001000199990001"
          QRType.SEEDSSQR).1 = DecodeQRStatus.INVALID ∧
      SeedQR.getSeedPhrase
        (SeedQR.add (fun _ => false) (fun _ => false)
            (SeedQR.init ["alpha", "beta"])
            "000100010001000100010001000100010001000199990001"
            QRType.SEEDSSQR).2 = [] := by
  refine ⟨by decide, by decide, ?_, by decide, ?_⟩
  · have h := C5_amended_numeric_seed.2.1 (fun _ => false) (fun _ => false)
      ["alpha", "beta"]
      "000100010001000100010001000100010001000100010001"
      (by decide) (by decide)
    simpa using h
  · exact C5_amended_numeric_seed.2.2 (fun _ => false) (fun _ => false)
      ["alpha", "beta"]
      "000100010001000100010001000100010001000199990001"
      (by decide) ⟨10, by decide, by decide⟩

lemma mapAll_none (tbl : List (String × String)) :
    ∀ (l : List String) (e : String), e ∈ l → Py.dget tbl e = none →
      SettingsQR.mapAll tbl l = none := by
  intro l
  induction l with
  | nil => intro e he; simp at he
  | cons v rest ih =>
    intro e he htbl
    rcases List.mem_cons.mp he with he | he
    · subst he
      simp [SettingsQR.mapAll, htbl]
    · simp only [SettingsQR.mapAll]
      cases hv : Py.dget tbl v with
      | none => rfl
      | some nv =>
        rw [ih e he htbl]
        by_cases hnv : nv = "" <;> simp [hnv]

/-- C10: in the settings translation, a `key=value` pair whose value
(or any element of its comma-separated list) has no match in its
abbreviation table is left untouched in the flat mapping — the early
return fires before the `del` — and the overall decode still reports
Complete, as the concrete `xpub=7` run shows. -/
theorem C10_untranslated_value_left_flat :
    (∀ (d : List (String × SVal)) (category key : String)
       (tbl : List (String × String)) (newKey : Option String) (v : String),
       Py.dget d key = some (SVal.leaf (LeafVal.str v)) →
       Py.dget tbl v = none →
       SettingsQR.convertAbbrev d category key tbl false newKey = d) ∧
    (∀ (d : List (String × SVal)) (category key : String)
       (tbl : List (String × String)) (newKey : Option String)
       (v e : String),
       Py.dget d key = some (SVal.leaf (LeafVal.str v)) →
       e ∈ Py.splitOn v ',' → Py.dget tbl e = none →
       SettingsQR.convertAbbrev d category key tbl true newKey = d) ∧
    SettingsQR.add SettingsQR.init "type=settings version=1 xpub=7" =
      (DecodeQRStatus.COMPLETE,
       { total_segments := 1, collected_segments := 1, complete := true,
         settings := [("xpub", SVal.leaf (LeafVal.str "7"))],
         config_name := none }) := by
  refine ⟨?_, ?_, by decide⟩
  · intro d category key tbl newKey v hd htbl
    simp [SettingsQR.convertAbbrev, hd, htbl]
  · intro d category key tbl newKey v e hd hmem htbl
    simp [SettingsQR.convertAbbrev, hd, mapAll_none tbl _ e hmem htbl]

/-- C10 witness: scalar `xpub=7` against the enable table and list
`coord=bw,zz` against the coordinator table. -/
theorem C10_untranslated_value_left_flat_witness :
    Py.dget [("xpub", SVal.leaf (LeafVal.str "7"))] "xpub" =
      some (SVal.leaf (LeafVal.str "7")) ∧
    Py.dget SettingsQR.mapAbbreviatedEnable "7" = none ∧
    SettingsQR.convertAbbrev [("xpub", SVal.leaf (LeafVal.str "7"))]
        "features" "xpub" SettingsQR.mapAbbreviatedEnable false
        (some "xpub_export") = [("xpub", SVal.leaf (LeafVal.str "7"))] ∧
    Py.dget [("coord", SVal.leaf (LeafVal.str "bw,zz"))] "coord" =
      some (SVal.leaf (LeafVal.str "bw,zz")) ∧
    "zz" ∈ Py.splitOn "bw,zz" ',' ∧
    Py.dget SettingsQR.mapAbbreviatedCoordinators "zz" = none ∧
    SettingsQR.convertAbbrev [("coord", SVal.leaf (LeafVal.str "bw,zz"))]
        "wallet" "coord" SettingsQR.mapAbbreviatedCoordinators true
        (some "coordinators") =
      [("coord", SVal.leaf (LeafVal.str "bw,zz"))] :=
  ⟨by decide, by decide,
   C10_untranslated_value_left_flat.1 [("xpub", SVal.leaf (LeafVal.str "7"))] "features" "xpub"
     SettingsQR.mapAbbreviatedEnable (some "xpub_export") "7"
     (by decide) (by decide),
   by decide, by decide, by decide,
   C10_untranslated_value_left_flat.2.1 [("coord", SVal.leaf (LeafVal.str "bw,zz"))] "wallet" "coord"
     SettingsQR.mapAbbreviatedCoordinators (some "coordinators") "bw,zz" "zz"
     (by decide) (by decide) (by decide)⟩

/-- C9: the xmrsigner `Seed` constructor rejects an absent or empty
mnemonic and every word count outside {12, 13, 24, 25} with an
exception, and accepts exactly those counts (succeeding whenever the
external Monero mnemonic derivation succeeds and no passphrase is
given). -/
theorem C9_seed_word_count :
    (∀ (mh : String → Option (List Nat)) (nfkd : String → String)
       (pp : Option String) (wl : String),
       Seed.init mh nfkd none pp wl =
         Except.error
           (PyExc.exc "Must initialize a Seed with a mnemonic List[str]")) ∧
    (∀ (mh : String → Option (List Nat)) (nfkd : String → String)
       (pp : Option String) (wl : String) (m : List String),
       ¬(m.length = 12 ∨ m.length = 13 ∨ m.length = 24 ∨ m.length = 25) →
       ∃ msg, Seed.init mh nfkd (some m) pp wl =
         Except.error (PyExc.exc msg)) ∧
    (∀ (mh : String → Option (List Nat)) (nfkd : String → String)
       (wl : String) (m : List String) (bs : List Nat),
       (m.length = 12 ∨ m.length = 13 ∨ m.length = 24 ∨ m.length = 25) →
       mh (Py.joinSpace (Py.splitWS (nfkd (Py.strip (Py.joinSpace m))))) =
         some bs →
       Seed.init mh nfkd (some m) none wl =
         Except.ok
           ⟨wl, Py.splitWS (nfkd (Py.strip (Py.joinSpace m))), none, bs⟩) := by
  refine ⟨?_, ?_, ?_⟩
  · intro mh nfkd pp wl
    simp [Seed.init]
  · intro mh nfkd pp wl m hlen
    cases m with
    | nil =>
      exact ⟨"Must initialize a Seed with a mnemonic List[str]",
        by simp [Seed.init]⟩
    | cons w rest =>
      refine ⟨"Mnemonic has not the right amounts of words", ?_⟩
      have hc : ((w :: rest).length = 12 || (w :: rest).length = 13 ||
          (w :: rest).length = 24 || (w :: rest).length = 25) = false := by
        simp only [Bool.or_eq_false_iff, decide_eq_false_iff_not]
        push_neg at hlen
        tauto
      simp only [Seed.init, List.isEmpty_cons, Bool.false_eq_true,
        if_false, exPure, exBind_ok]
      rw [hc]
      simp
  · intro mh nfkd wl m bs hlen hmh
    cases m with
    | nil => simp at hlen
    | cons w rest =>
      have hc : ((w :: rest).length = 12 || (w :: rest).length = 13 ||
          (w :: rest).length = 24 || (w :: rest).length = 25) = true := by
        simp only [Bool.or_eq_true, decide_eq_true_eq]
        tauto
      simp only [Seed.init, List.isEmpty_cons, Bool.false_eq_true,
        if_false, exPure, exBind_ok]
      rw [hc]
      simp [hmh]

/-- C9 witness: a missing mnemonic, a 5-word mnemonic, and a 12-word
mnemonic with a successful external derivation. -/
theorem C9_seed_word_count_witness :
    Seed.init (fun _ => some [1, 2, 3]) (fun s => s) none none "en" =
      Except.error
        (PyExc.exc "Must initialize a Seed with a mnemonic List[str]") ∧
    (¬((["only", "five", "words", "given", "here"] : List String).length = 12 ∨
        (["only", "five", "words", "given", "here"] : List String).length = 13 ∨
        (["only", "five", "words", "given", "here"] : List String).length = 24 ∨
        (["only", "five", "words", "given", "here"] : List String).length = 25)) ∧
    (∃ msg, Seed.init (fun _ => some [1, 2, 3]) (fun s => s)
        (some ["only", "five", "words", "given", "here"]) none "en" =
      Except.error (PyExc.exc msg)) ∧
    ((["a", "b", "c", "d", "e", "f", "g", "h", "i", "j", "k", "l"]
        : List String).length = 12 ∨
      (["a", "b", "c", "d", "e", "f", "g", "h", "i", "j", "k", "l"]
        : List String).length = 13 ∨
      (["a", "b", "c", "d", "e", "f", "g", "h", "i", "j", "k", "l"]
        : List String).length = 24 ∨
      (["a", "b", "c", "d", "e", "f", "g", "h", "i", "j", "k", "l"]
        : List String).length = 25) ∧
    Seed.init (fun _ => some [1, 2, 3]) (fun s => s)
        (some ["a", "b", "c", "d", "e", "f", "g", "h", "i", "j", "k", "l"])
        none "en" =
      Except.ok
        ⟨"en",
         Py.splitWS ((fun s => s) (Py.strip (Py.joinSpace
           ["a", "b", "c", "d", "e", "f", "g", "h", "i", "j", "k", "l"]))),
         none, [1, 2, 3]⟩ :=
  ⟨C9_seed_word_count.1 (fun _ => some [1, 2, 3]) (fun s => s) none "en",
   by decide,
   C9_seed_word_count.2.1 (fun _ => some [1, 2, 3]) (fun s => s) none "en"
     ["only", "five", "words", "given", "here"] (by decide),
   by decide,
   C9_seed_word_count.2.2 (fun _ => some [1, 2, 3]) (fun s => s) "en"
     ["a", "b", "c", "d", "e", "f", "g", "h", "i", "j", "k", "l"]
     [1, 2, 3] (by decide) rfl⟩

lemma startsWithCS_append : ∀ (p X : List Char),
    Py.startsWithCS (p ++ X) p = true
  | [], X => by simp [Py.startsWithCS]
  | c :: rest, X => by
    simp [Py.startsWithCS, startsWithCS_append rest X]

lemma addrAltAt_append {cs p rest : List Char}
    (h : Frames.addrAltAt cs = some (p, rest)) (X : List Char) :
    Frames.addrAltAt (p ++ X) = some (p, X) := by
  unfold Frames.addrAltAt at h
  by_cases hbc : Py.startsWithCS cs "bc1".data = true
  · rw [if_pos hbc] at h
    simp only [Option.some.injEq, Prod.mk.injEq] at h
    obtain ⟨hp, -⟩ := h
    subst hp
    unfold Frames.addrAltAt
    rw [if_pos (startsWithCS_append "bc1".data X)]
    simp
  · rw [if_neg hbc] at h
    by_cases htb : Py.startsWithCS cs "tb1".data = true
    · rw [if_pos htb] at h
      simp only [Option.some.injEq, Prod.mk.injEq] at h
      obtain ⟨hp, -⟩ := h
      subst hp
      unfold Frames.addrAltAt
      rw [if_neg (by simp [Py.startsWithCS])]
      rw [if_pos (startsWithCS_append "tb1".data X)]
      simp
    · rw [if_neg htb] at h
      cases cs with
      | nil => simp at h
      | cons c rest' =>
        dsimp only at h
        by_cases h123 : (c = '1' || c = '2' || c = '3' : Bool) = true
        · rw [if_pos h123] at h
          simp only [Option.some.injEq, Prod.mk.injEq] at h
          obtain ⟨hp, -⟩ := h
          subst hp
          simp only [Bool.or_eq_true, decide_eq_true_eq] at h123
          rcases h123 with (h1 | h1) | h1 <;>
            (subst h1; simp [Frames.addrAltAt, Py.startsWithCS])
        · rw [if_neg h123] at h
          by_cases hmn : (c = 'm' || c = 'n' : Bool) = true
          · rw [if_pos hmn] at h
            simp only [Option.some.injEq, Prod.mk.injEq] at h
            obtain ⟨hp, -⟩ := h
            subst hp
            simp only [Bool.or_eq_true, decide_eq_true_eq] at hmn
            rcases hmn with h1 | h1 <;>
              (subst h1; simp [Frames.addrAltAt, Py.startsWithCS])
          · rw [if_neg hmn] at h
            simp at h

lemma all_take_of_le_takeWhile {p : Char → Bool} :
    ∀ (l : List Char) (k : Nat), k ≤ (l.takeWhile p).length →
      (l.take k).all p = true := by
  intro l
  induction l with
  | nil => intro k _; simp
  | cons c rest ih =>
    intro k hk
    by_cases hc : p c = true
    · rw [List.takeWhile_cons, if_pos hc] at hk
      cases k with
      | zero => simp
      | succ k' =>
        simp only [List.take_succ_cons, List.all_cons, hc,
          Bool.true_and]
        exact ih k' (by simpa using hk)
    · rw [List.takeWhile_cons,
        if_neg hc] at hk
      simp at hk
      subst hk
      simp

lemma takeWhile_len_le (p : Char → Bool) :
    ∀ l : List Char, (l.takeWhile p).length ≤ l.length
  | [] => by simp
  | c :: rest => by
    by_cases hc : p c = true
    · rw [List.takeWhile_cons, if_pos hc]
      simpa using takeWhile_len_le p rest
    · rw [List.takeWhile_cons, if_neg hc]
      simp

lemma addrMatchAt_anchored {cs m : List Char}
    (h : Frames.addrMatchAt cs = some m) : Frames.addrAnchored m = true := by
  unfold Frames.addrMatchAt at h
  cases halt : Frames.addrAltAt cs with
  | none => rw [halt] at h; simp at h
  | some pr =>
    obtain ⟨p, rest⟩ := pr
    rw [halt] at h
    dsimp only at h
    by_cases hrun : 25 ≤ (rest.takeWhile Frames.addrBodyChar).length
    · rw [if_pos hrun] at h
      simp only [Option.some.injEq] at h
      subst h
      set k := min (rest.takeWhile Frames.addrBodyChar).length 62 with hk
      have hkle : k ≤ (rest.takeWhile Frames.addrBodyChar).length := by omega
      have hklen : k ≤ rest.length := by
        have := takeWhile_len_le Frames.addrBodyChar rest
        omega
      have halt' := addrAltAt_append halt (rest.take k)
      unfold Frames.addrAnchored
      rw [halt']
      dsimp only
      have hall := all_take_of_le_takeWhile rest k hkle
      have hlen : (rest.take k).length = k := by
        simp [hklen]
      rw [hall, hlen]
      simp only [Bool.true_and]
      have h25 : 25 ≤ k := by omega
      have h62 : k ≤ 62 := by omega
      simp [h25, h62]
    · rw [if_neg hrun] at h
      simp at h

lemma addrSearch_anchored :
    ∀ {cs m : List Char}, Frames.addrSearch cs = some m →
      Frames.addrAnchored m = true := by
  intro cs
  induction cs with
  | nil => intro m h; simp [Frames.addrSearch] at h
  | cons c rest ih =>
    intro m h
    unfold Frames.addrSearch at h
    cases hm : Frames.addrMatchAt (c :: rest) with
    | some m' =>
      rw [hm] at h
      simp only [Option.some.injEq] at h
      subst h
      exact addrMatchAt_anchored hm
    | none =>
      rw [hm] at h
      exact ih h

lemma addressAdd_invalid_fresh (s : String) (st' : BitcoinAddressQR)
    (h : BitcoinAddressQR.add BitcoinAddressQR.init s =
      (DecodeQRStatus.INVALID, st')) :
    st'.address = none ∧ st'.address_type = none := by
  unfold BitcoinAddressQR.add at h
  cases hs : Frames.addrSearch s.data with
  | none =>
    rw [hs] at h
    simp only [Prod.mk.injEq] at h
    rw [← h.2]
    exact ⟨rfl, rfl⟩
  | some m =>
    rw [hs] at h
    dsimp only at h
    rw [addrSearch_anchored hs] at h
    simp at h

lemma pyJoinOpt_of_mem_none :
    ∀ (l : List (Option String)), none ∈ l →
      Py.pyJoinOpt l =
        Except.error
          (PyExc.typeError
            "sequence item: expected str instance, NoneType found") := by
  intro l
  induction l with
  | nil => intro h; simp at h
  | cons o rest ih =>
    intro h
    cases o with
    | none => rfl
    | some v =>
      have : none ∈ rest := by
        rcases List.mem_cons.mp h with h' | h'
        · exact absurd h'.symm (by simp)
        · exact h'
      simp [Py.pyJoinOpt, ih this]

/-- C1 counterexample: on an Invalid settings frame
(`type=settings version=2 name=X`) the session is not complete yet
`get_settings_data` returns the non-empty partially parsed mapping —
partial data, not an absent result; and on a partially collected
wallet-descriptor session `getWalletDescriptor` raises a `TypeError`
(joining a `None` slot) instead of returning absent. -/
theorem C1_counterexample :
    (DecodeQR.addString trivialCollab (DecodeQR.mkSession [])
        (some "type=settings version=2 name=X")).map
        (fun p => (p.1, p.2.complete, DecodeQR.get_settings_data p.2)) =
      Except.ok (DecodeQRStatus.INVALID, false,
        [("name", SVal.leaf (LeafVal.str "X"))]) ∧
    (DecodeQR.addString trivialCollab (DecodeQR.mkSession [])
        (some "p1of2 \x7b\"label\": \"x\"")).map
        (fun p => (p.1, p.2.complete)) =
      Except.ok (DecodeQRStatus.PART_COMPLETE, false) ∧
    (DecodeQR.addString trivialCollab (DecodeQR.mkSession [])
        (some "p1of2 \x7b\"label\": \"x\"")).bind
        (fun p => DecodeQR.getWalletDescriptor trivialCollab p.2) =
      Except.error
        (PyExc.typeError
          "sequence item: expected str instance, NoneType found") :=
  ⟨by decide, by decide, by decide⟩

/-- C1 amended: `getDataPSBT` is gated on session completion and a
locked PSBT-family type; `getSeedPhrase` is empty unless the seed
decoder completed; `getAddress`/`getAddressType` are absent after a
failed frame on a fresh address decoder (the anchored re-check can in
fact never fail once the loose search matched); but
`get_settings_data` returns the raw settings mapping with no gate at
all, and `getWalletDescriptor` raises a `TypeError` whenever any
segment slot is still empty, rather than returning absent. -/
theorem C1_amended_accessor_gating :
    (∀ (C : Collab) (st : DecodeQR), st.complete = false →
       DecodeQR.getDataPSBT C st = Except.ok none) ∧
    (∀ (C : Collab) (st : DecodeQR) (t : QRType), st.qr_type = some t →
       t ≠ QRType.PSBTUR2 → t ≠ QRType.PSBTSPECTER →
       t ≠ QRType.PSBTURLEGACY → t ≠ QRType.PSBTBASE64 →
       t ≠ QRType.PSBTBASE43 →
       DecodeQR.getDataPSBT C st = Except.ok none) ∧
    (∀ st : DecodeQR, st.seedqr.complete = false →
       DecodeQR.getSeedPhrase st = []) ∧
    (∀ (s : String) (st' : BitcoinAddressQR),
       BitcoinAddressQR.add BitcoinAddressQR.init s =
         (DecodeQRStatus.INVALID, st') →
       BitcoinAddressQR.getAddress st' = none ∧
         BitcoinAddressQR.getAddressType st' = none) ∧
    (∀ st : DecodeQR,
       DecodeQR.get_settings_data st = st.settings_qr.settings) ∧
    (∀ (C : Collab) (st : DecodeQR), none ∈ st.specter_wallet_qr.segments →
       DecodeQR.getWalletDescriptor C st =
         Except.error
           (PyExc.typeError
             "sequence item: expected str instance, NoneType found")) := by
  refine ⟨?_, ?_, ?_, ?_, fun _ => rfl, ?_⟩
  · intro C st h
    simp [DecodeQR.getDataPSBT, h]
  · intro C st t hq h1 h2 h3 h4 h5
    by_cases hc : st.complete
    · cases t <;> simp_all [DecodeQR.getDataPSBT]
    · simp [DecodeQR.getDataPSBT, hc]
  · intro st h
    simp [DecodeQR.getSeedPhrase, SeedQR.getSeedPhrase, h]
  · intro s st' h
    have := addressAdd_invalid_fresh s st' h
    exact ⟨this.1,
      by simp [BitcoinAddressQR.getAddressType, this.1]⟩
  · intro C st hmem
    simp [DecodeQR.getWalletDescriptor,
      SpecterDecodeWalletQR.getWalletDescriptor,
      SpecterDecodeWalletQR.validateWalletDescriptor,
      SpecterDecodeWalletQR.validateJson,
      pyJoinOpt_of_mem_none _ hmem]

/-- C1 amended witness: fresh and mis-typed sessions for the gated
accessors, a non-matching address frame, and a half-filled
wallet-descriptor segment set. -/
theorem C1_amended_accessor_gating_witness :
    ((DecodeQR.mkSession []) : DecodeQR).complete = false ∧
    DecodeQR.getDataPSBT trivialCollab (DecodeQR.mkSession []) =
      Except.ok none ∧
    ({ DecodeQR.mkSession [] with
        qr_type := some QRType.SETTINGS
        complete := true } : DecodeQR).qr_type = some QRType.SETTINGS ∧
    DecodeQR.getDataPSBT trivialCollab
        { DecodeQR.mkSession [] with
          qr_type := some QRType.SETTINGS
          complete := true } = Except.ok none ∧
    ((DecodeQR.mkSession []) : DecodeQR).seedqr.complete = false ∧
    DecodeQR.getSeedPhrase (DecodeQR.mkSession []) = [] ∧
    BitcoinAddressQR.add BitcoinAddressQR.init "hello" =
      (DecodeQRStatus.INVALID, BitcoinAddressQR.init) ∧
    (BitcoinAddressQR.getAddress BitcoinAddressQR.init = none ∧
      BitcoinAddressQR.getAddressType BitcoinAddressQR.init = none) ∧
    none ∈ ({ DecodeQR.mkSession [] with
        specter_wallet_qr := ⟨some 2, 1, false, [some "x", none]⟩ }
          : DecodeQR).specter_wallet_qr.segments ∧
    DecodeQR.getWalletDescriptor trivialCollab
        { DecodeQR.mkSession [] with
          specter_wallet_qr := ⟨some 2, 1, false, [some "x", none]⟩ } =
      Except.error
        (PyExc.typeError
          "sequence item: expected str instance, NoneType found") :=
  ⟨rfl,
   C1_amended_accessor_gating.1 trivialCollab (DecodeQR.mkSession []) rfl,
   rfl,
   C1_amended_accessor_gating.2.1 trivialCollab
     { DecodeQR.mkSession [] with
       qr_type := some QRType.SETTINGS
       complete := true } QRType.SETTINGS rfl (by decide) (by decide)
     (by decide) (by decide) (by decide),
   rfl,
   C1_amended_accessor_gating.2.2.1 (DecodeQR.mkSession []) rfl,
   by decide,
   C1_amended_accessor_gating.2.2.2.1 "hello" BitcoinAddressQR.init (by decide),
   by decide,
   C1_amended_accessor_gating.2.2.2.2.2 trivialCollab
     { DecodeQR.mkSession [] with
       specter_wallet_qr := ⟨some 2, 1, false, [some "x", none]⟩ }
     (by decide)⟩
